import Mathlib

/-! QSimpleUpdater: version comparison, manifest check, session registry.

A shallow embedding of `Updater.cpp`, `Downloader.cpp` and `QSimpleUpdater.cpp`.

Conventions of the embedding:
* `QString` is a Lean `String`, `QByteArray` a list of bytes, `QUrl` a string
  (`isEmpty` is emptiness of the string).
* Qt library functions (`QString::split`, `QString::toInt`, `QJsonObject::value`,
  `QDir::filePath`, ...) are modelled from their Qt documentation.
* Signals emitted and external actions performed (network requests, message
  boxes, `QDesktopServices::openUrl`, `QApplication::quit`) are recorded, in
  program order, in a list of `Effect`s.  The answer a user gives to a modal
  message box is an input of the handler that shows it.
* The network drives a download through events (headers, progress, end of the
  transfer); an event first gives the reply object the values it brings, then
  the connected slot of `Downloader` runs.  A slot that divides by zero has no
  outcome (`none`).
* `qDebug()` / `qInfo()` logging is not modelled.
-/

namespace QSU

/-! ## Qt strings -/

abbrev QString := String

/-- Splitting of a character list at every occurrence of `sep`, keeping empty
parts; `cur` holds the characters of the part being read, in reverse. -/
def splitAux (sep : Char) : List Char → List Char → List (List Char)
  | [], cur => [cur.reverse]
  | c :: cs, cur =>
    if c = sep then cur.reverse :: splitAux sep cs []
    else splitAux sep cs (c :: cur)

/-- Model of `QString::split(sep)` with the default `KeepEmptyParts`, for a
one-character separator: the result is never empty (`"".split(".")` is `[""]`). -/
def split (s : QString) (sep : Char) : List QString :=
  (splitAux sep s.toList []).map String.mk

/-- Model of `QChar::isSpace` on the ASCII range: space, `\t`, `\n`, `\v`, `\f`, `\r`. -/
def isSpace (c : Char) : Bool :=
  c.toNat = 32 || (9 ≤ c.toNat && c.toNat ≤ 13)

/-- Model of `QString::trimmed` on a character list. -/
def trimmed (cs : List Char) : List Char :=
  ((cs.dropWhile isSpace).reverse.dropWhile isSpace).reverse

/-- Value of a non-empty string of ASCII decimal digits, `none` for anything else. -/
def digitsValue : List Char → Nat → Option Nat
  | [], acc => some acc
  | c :: cs, acc =>
    if 48 ≤ c.toNat ∧ c.toNat ≤ 57 then digitsValue cs (10 * acc + (c.toNat - 48))
    else none

/-- Unsigned decimal number: at least one digit and nothing but digits. -/
def parseUnsigned (cs : List Char) : Option Nat :=
  match cs with
  | [] => none
  | _ :: _ => digitsValue cs 0

/-- Model of `QString::toInt()` (base 10, C locale): surrounding white space is
ignored, an optional sign is followed by decimal digits, and the value has to
fit a 32-bit `int`.  Returns 0 if the conversion fails. -/
def toInt (s : QString) : Int :=
  match trimmed s.toList with
  | '-' :: ds =>
    match parseUnsigned ds with
    | some n => if n ≤ 2147483648 then - (n : Int) else 0
    | none => 0
  | '+' :: ds =>
    match parseUnsigned ds with
    | some n => if n ≤ 2147483647 then (n : Int) else 0
    | none => 0
  | ds =>
    match parseUnsigned ds with
    | some n => if n ≤ 2147483647 then (n : Int) else 0
    | none => 0

/-! ## `Updater::compare` -/

/-- The `for (int i = 0; i < count; ++i)` loop of `Updater::compare`, started at
index `i` with `remaining = count - i` iterations to go.  `some r` is an early
`return r`; `none` means the loop ran to its end. -/
def compareLoop (versionsX versionsY : List QString) : Nat → Nat → Option Bool
  | 0, _ => none
  | remaining + 1, i =>
    let a := toInt (versionsX.getD i "")
    let b := toInt (versionsY.getD i "")
    if a > b then some true
    else if b > a then some false
    else compareLoop versionsX versionsY remaining (i + 1)

/-- Model of `Updater::compare` on the two segment lists. -/
def compareSegments (versionsX versionsY : List QString) : Bool :=
  let count := min versionsX.length versionsY.length
  match compareLoop versionsX versionsY count 0 with
  | some r => r
  | none => decide (versionsY.length < versionsX.length)

/-- Model of `Updater::compare(x, y)`. -/
def Updater.compare (x y : QString) : Bool :=
  compareSegments (split x '.') (split y '.')

/-! ## Qt values the update check handles -/

abbrev QByteArray := List UInt8

abbrev QUrl := String

/-- A JSON value as Qt represents it; `undefined` is what `QJsonObject::value`
returns for a key the object does not have. -/
inductive QJsonValue where
  | null
  | bool (b : Bool)
  | double (d : Rat)
  | string (s : QString)
  | array (a : List QJsonValue)
  | object (o : List (QString × QJsonValue))
  | undefined

abbrev QJsonObject := List (QString × QJsonValue)

/-- Model of `QJsonObject::value(key)`. -/
def QJsonObject.value (o : QJsonObject) (key : QString) : QJsonValue :=
  match o.lookup key with
  | some v => v
  | none => QJsonValue.undefined

/-- Model of `QJsonObject::contains(key)`. -/
def QJsonObject.contains (o : QJsonObject) (key : QString) : Bool :=
  (o.lookup key).isSome

/-- Model of `QJsonValue::toObject()`: the empty object for a value that is not an object. -/
def QJsonValue.toObject : QJsonValue → QJsonObject
  | QJsonValue.object o => o
  | _ => []

/-- Model of `QJsonValue::toString()`: the null string for a value that is not a string. -/
def QJsonValue.toString : QJsonValue → QString
  | QJsonValue.string s => s
  | _ => ""

/-- Model of `QJsonValue::toBool()`: `false` for a value that is not a boolean. -/
def QJsonValue.toBool : QJsonValue → Bool
  | QJsonValue.bool b => b
  | _ => false

/-- Result of `QJsonDocument::fromJson`: `null` when the bytes do not parse. -/
inductive QJsonDocument where
  | null
  | ofArray (a : List QJsonValue)
  | ofObject (o : QJsonObject)

/-- Model of `QJsonDocument::isNull()`. -/
def QJsonDocument.isNull : QJsonDocument → Bool
  | QJsonDocument.null => true
  | _ => false

/-- Model of `QJsonDocument::object()`: the empty object when the document holds an array. -/
def QJsonDocument.object : QJsonDocument → QJsonObject
  | QJsonDocument.ofObject o => o
  | _ => []

/-- A `QNetworkRequest`: the URL and the raw `User-Agent` header, if one was set. -/
structure QNetworkRequest where
  url : QUrl
  userAgent : Option QString
deriving DecidableEq, Repr

/-- What the handlers read from a `QNetworkReply`. `error = 0` is `NoError`;
an empty `redirectionTarget` is an absent `RedirectionTargetAttribute`. -/
structure QNetworkReply where
  request : QNetworkRequest
  redirectionTarget : QUrl
  error : Nat
  data : QByteArray
  isFinished : Bool
  contentDisposition : Option QByteArray
deriving DecidableEq, Repr

/-- The reply object `QNetworkAccessManager::get` hands back: nothing received yet. -/
def QNetworkReply.fresh (request : QNetworkRequest) : QNetworkReply :=
  { request := request, redirectionTarget := "", error := 0, data := [],
    isFinished := false, contentDisposition := none }

/-- Which object owns the `QNetworkAccessManager` a request goes through. -/
inductive Manager where
  | updater
  | downloader
deriving DecidableEq, Repr

/-- Signals emitted and external actions taken by the update code. -/
inductive Effect where
  /-- signal `checkingFinished(url)` -/
  | checkingFinished (url : QString)
  /-- signal `appcastDownloaded(url, reply)` -/
  | appcastDownloaded (url : QString) (reply : QByteArray)
  /-- signal `downloadFinished(url, filepath)` -/
  | downloadFinished (url filepath : QString)
  /-- call `m_manager->get(request)` -/
  | get (manager : Manager) (request : QNetworkRequest)
  /-- the Yes/No message box of `setUpdateAvailable` -/
  | updatePrompt (latestVersion moduleName changelog : QString) (mandatory : Bool)
  /-- the Close-only message box of `setUpdateAvailable` -/
  | noUpdatePrompt (moduleName : QString)
  /-- call of `QDesktopServices::openUrl` -/
  | openUrl (url : QUrl)
  /-- call of `QApplication::quit()` -/
  | quit
  /-- the Ok/Cancel message box of `Downloader::installUpdate` -/
  | installPrompt (mandatory : Bool)
  /-- the Yes/No message box of `Downloader::cancelDownload` -/
  | cancelPrompt (mandatory : Bool)
  /-- the error box of `Downloader::openDownload`: the downloaded file is not found -/
  | fileNotFound
  /-- call of `m_reply->abort()` -/
  | abort
deriving DecidableEq, Repr

/-- The signals among the effects. -/
def Effect.isSignal : Effect → Bool
  | Effect.checkingFinished _ => true
  | Effect.appcastDownloaded _ _ => true
  | Effect.downloadFinished _ _ => true
  | _ => false

/-- Whether the effect is a `checkingFinished` signal. -/
def Effect.isCheckingFinished : Effect → Bool
  | Effect.checkingFinished _ => true
  | _ => false

/-- Whether the effect is an `appcastDownloaded` signal. -/
def Effect.isAppcastDownloaded : Effect → Bool
  | Effect.appcastDownloaded _ _ => true
  | _ => false

/-- What the constructors read from the running application and the build:
`qApp->applicationName()`, `qApp->applicationVersion()`, the platform key
selected by the `Q_OS_*` macros (empty when none is defined), `QDir::homePath()`
and `QDir::currentPath()`. -/
structure QApp where
  applicationName : QString
  applicationVersion : QString
  platform : QString
  homePath : QString
  currentPath : QString
deriving DecidableEq, Repr

/-! ## Files -/

/-- The part of the file system the downloader touches: the directories that
exist and the regular files with their content, by path. -/
structure FileSystem where
  dirs : List QString
  files : List (QString × QByteArray)
deriving DecidableEq, Repr

/-- Model of `QFile::remove(path)`. -/
def FileSystem.remove (fs : FileSystem) (path : QString) : FileSystem :=
  { fs with files := fs.files.filter (fun f => f.1 != path) }

/-- Model of `QDir::exists()` for the directory at `path`. -/
def FileSystem.dirExists (fs : FileSystem) (path : QString) : Bool :=
  fs.dirs.contains path

/-- Model of `QDir::mkpath(".")` for the directory at `path`. -/
def FileSystem.mkpath (fs : FileSystem) (path : QString) : FileSystem :=
  if fs.dirs.contains path then fs else { fs with dirs := path :: fs.dirs }

/-- A `QDir`: the path it was set to. -/
structure QDir where
  path : QString
deriving DecidableEq, Repr

/-- Model of `QDir::setPath`: one trailing `/` is dropped unless the path is just `/`. -/
def QDir.setPath (path : QString) : QDir :=
  match path.toList.reverse with
  | '/' :: c :: cs => { path := String.mk (c :: cs).reverse }
  | _ => { path := path }

/-- Whether a path is absolute. -/
def isAbsolutePath (path : QString) : Bool :=
  match path.toList with
  | '/' :: _ => true
  | _ => false

/-- Model of `QDir::filePath(fileName)`. -/
def QDir.filePath (d : QDir) (fileName : QString) : QString :=
  if isAbsolutePath fileName then fileName
  else if fileName = "" then d.path
  else if d.path = "" ∨ d.path.toList.getLast? = some '/' then d.path ++ fileName
  else d.path ++ "/" ++ fileName

/-- Model of `QDir::absolutePath()`, without the clean-up of `.`, `..` and doubled
separators. -/
def QDir.absolutePath (app : QApp) (d : QDir) : QString :=
  if isAbsolutePath d.path then d.path
  else (QDir.setPath app.currentPath).filePath d.path

/-! ## `Downloader`: what starting a download does -/

/-- The `QProgressBar` of the download dialog. -/
structure ProgressBar where
  minimum : Int
  maximum : Int
  value : Int
deriving DecidableEq, Repr

/-- Model of `QProgressBar::setValue`: a value outside the range is ignored
unless the range is the indeterminate one, `0..0`. -/
def ProgressBar.setValue (pb : ProgressBar) (v : Int) : ProgressBar :=
  if pb.value = v ∨ ((v > pb.maximum ∨ v < pb.minimum) ∧ (pb.maximum ≠ 0 ∨ pb.minimum ≠ 0))
  then pb else { pb with value := v }

/-- The members of `Downloader` and the contents of its dialog. -/
structure Downloader where
  m_url : QString
  m_fileName : QString
  m_startTime : Int
  m_useCustomProcedures : Bool
  m_mandatoryUpdate : Bool
  m_userAgentString : QString
  m_downloadDir : QDir
  m_reply : Option QNetworkReply
  progressBar : ProgressBar
  stopButton : QString
  downloadLabel : QString
  timeLabel : QString
  visible : Bool
deriving DecidableEq, Repr

/-- The suffix of a download in progress, `PARTIAL_DOWN`. -/
def PARTIAL_DOWN : QString := ".part"

/-- Constructor `Downloader::Downloader`. The form `Ui::Downloader` is not
part of the sources: the widgets start with Qt's defaults and empty texts. -/
def Downloader.new (app : QApp) : Downloader :=
  { m_url := "", m_fileName := "", m_startTime := 0,
    m_useCustomProcedures := false, m_mandatoryUpdate := false,
    m_userAgentString := "",
    m_downloadDir := QDir.setPath (app.homePath ++ "/Downloads/"),
    m_reply := none,
    progressBar := { minimum := 0, maximum := 100, value := -1 },
    stopButton := "", downloadLabel := "", timeLabel := "",
    visible := false }

/-- Model of `Downloader::useCustomInstallProcedures`. -/
def Downloader.useCustomInstallProcedures (d : Downloader) : Bool :=
  d.m_useCustomProcedures

/-- Model of `Downloader::setUrlId`. -/
def Downloader.setUrlId (d : Downloader) (url : QString) : Downloader :=
  { d with m_url := url }

/-- Model of `Downloader::setFileName`: an empty name becomes `QSU_Update.bin`. -/
def Downloader.setFileName (d : Downloader) (file : QString) : Downloader :=
  if file = "" then { d with m_fileName := "QSU_Update.bin" }
  else { d with m_fileName := file }

/-- Model of `Downloader::setUserAgentString`. -/
def Downloader.setUserAgentString (d : Downloader) (agent : QString) : Downloader :=
  { d with m_userAgentString := agent }

/-- Model of `Downloader::setMandatoryUpdate`. -/
def Downloader.setMandatoryUpdate (d : Downloader) (mandatory_update : Bool) : Downloader :=
  { d with m_mandatoryUpdate := mandatory_update }

/-- Model of `Downloader::setUseCustomInstallProcedures`. -/
def Downloader.setUseCustomInstallProcedures (d : Downloader) (custom : Bool) : Downloader :=
  { d with m_useCustomProcedures := custom }

/-- Model of `Downloader::setDownloadDir`. -/
def Downloader.setDownloadDir (app : QApp) (d : Downloader) (downloadDir : QString) : Downloader :=
  if d.m_downloadDir.absolutePath app ≠ downloadDir
  then { d with m_downloadDir := QDir.setPath downloadDir } else d

/-- The request both `checkForUpdates` and `startDownload` build: the
`User-Agent` header is set only for a non-empty agent string. -/
def mkRequest (url : QUrl) (userAgentString : QString) : QNetworkRequest :=
  { url := url, userAgent := if userAgentString = "" then none else some userAgentString }

/-- Model of `Downloader::startDownload(url)` at time `now` (seconds since the
epoch): resets the dialog, issues the request, makes sure the download
directory exists and removes an old download and an old partial download. -/
def Downloader.startDownload (d : Downloader) (fs : FileSystem) (now : Int) (url : QUrl) :
    Downloader × FileSystem × List Effect :=
  let request := mkRequest url d.m_userAgentString
  let d1 : Downloader :=
    { d with
      progressBar := d.progressBar.setValue 0
      stopButton := "停止"
      downloadLabel := "下载更新"
      timeLabel := "剩余时间" ++ ": " ++ "..."
      m_reply := some (QNetworkReply.fresh request)
      m_startTime := now
      visible := true }
  let fs1 := if fs.dirExists d.m_downloadDir.path then fs else fs.mkpath d.m_downloadDir.path
  let fs2 := fs1.remove (d.m_downloadDir.filePath d.m_fileName)
  let fs3 := fs2.remove (d.m_downloadDir.filePath (d.m_fileName ++ PARTIAL_DOWN))
  (d1, fs3, [Effect.get Manager.downloader request])

/-! ## `Updater` -/

/-- The members of `Updater`. -/
structure Updater where
  m_url : QString
  m_openUrl : QString
  m_changelog : QString
  m_downloadUrl : QString
  m_latestVersion : QString
  m_customAppcast : Bool
  m_notifyOnUpdate : Bool
  m_notifyOnFinish : Bool
  m_updateAvailable : Bool
  m_downloaderEnabled : Bool
  m_moduleName : QString
  m_moduleVersion : QString
  m_mandatoryUpdate : Bool
  m_platform : QString
  m_userAgentString : QString
  m_downloader : Downloader
deriving DecidableEq, Repr

namespace Updater

/-- Constructor `Updater::Updater`. -/
def new (app : QApp) : Updater :=
  let agent := app.applicationName ++ "/" ++ app.applicationVersion ++ " (Qt; QSimpleUpdater)"
  { m_url := "", m_openUrl := "", m_changelog := "", m_downloadUrl := "",
    m_latestVersion := "", m_customAppcast := false, m_notifyOnUpdate := true,
    m_notifyOnFinish := false, m_updateAvailable := false,
    m_downloaderEnabled := true,
    m_moduleName := app.applicationName,
    m_moduleVersion := app.applicationVersion,
    m_mandatoryUpdate := false,
    m_platform := app.platform,
    m_userAgentString := agent,
    m_downloader := (Downloader.new app).setUserAgentString agent }

def url (u : Updater) : QString := u.m_url
def openUrl (u : Updater) : QString := u.m_openUrl
def changelog (u : Updater) : QString := u.m_changelog
def moduleName (u : Updater) : QString := u.m_moduleName
def platformKey (u : Updater) : QString := u.m_platform
def downloadUrl (u : Updater) : QString := u.m_downloadUrl
def latestVersion (u : Updater) : QString := u.m_latestVersion
def userAgentString (u : Updater) : QString := u.m_userAgentString
def moduleVersion (u : Updater) : QString := u.m_moduleVersion
def customAppcast (u : Updater) : Bool := u.m_customAppcast
def notifyOnUpdate (u : Updater) : Bool := u.m_notifyOnUpdate
def notifyOnFinish (u : Updater) : Bool := u.m_notifyOnFinish
def mandatoryUpdate (u : Updater) : Bool := u.m_mandatoryUpdate
def updateAvailable (u : Updater) : Bool := u.m_updateAvailable
def downloaderEnabled (u : Updater) : Bool := u.m_downloaderEnabled
def useCustomInstallProcedures (u : Updater) : Bool :=
  u.m_downloader.useCustomInstallProcedures

def setUrl (u : Updater) (url : QString) : Updater := { u with m_url := url }
def setModuleName (u : Updater) (name : QString) : Updater := { u with m_moduleName := name }
def setNotifyOnUpdate (u : Updater) (notify : Bool) : Updater :=
  { u with m_notifyOnUpdate := notify }
def setNotifyOnFinish (u : Updater) (notify : Bool) : Updater :=
  { u with m_notifyOnFinish := notify }
def setUserAgentString (u : Updater) (agent : QString) : Updater :=
  { u with m_userAgentString := agent, m_downloader := u.m_downloader.setUserAgentString agent }
def setModuleVersion (u : Updater) (version : QString) : Updater :=
  { u with m_moduleVersion := version }
def setDownloaderEnabled (u : Updater) (enabled : Bool) : Updater :=
  { u with m_downloaderEnabled := enabled }
def setDownloadDir (app : QApp) (u : Updater) (dir : QString) : Updater :=
  { u with m_downloader := u.m_downloader.setDownloadDir app dir }
def setPlatformKey (u : Updater) (platformKey : QString) : Updater :=
  { u with m_platform := platformKey }
def setUseCustomAppcast (u : Updater) (customAppcast : Bool) : Updater :=
  { u with m_customAppcast := customAppcast }
def setUseCustomInstallProcedures (u : Updater) (custom : Bool) : Updater :=
  { u with m_downloader := u.m_downloader.setUseCustomInstallProcedures custom }
def setMandatoryUpdate (u : Updater) (mandatory_update : Bool) : Updater :=
  { u with m_mandatoryUpdate := mandatory_update }

/-- Model of `Updater::checkForUpdates`: one GET of `url()` through the updater's manager. -/
def checkForUpdates (u : Updater) : List Effect :=
  [Effect.get Manager.updater (mkRequest u.url u.userAgentString)]

end Updater

/-- Outcome of a slot of `Updater`: the object and the file system afterwards,
and the effects in the order they happened. -/
structure Outcome where
  updater : Updater
  fs : FileSystem
  effects : List Effect
deriving DecidableEq, Repr

namespace Updater

/-- Model of `Updater::setUpdateAvailable(available)`. `answerYes` tells whether
the update prompt, if shown, is answered with Yes; `now` is the clock reading
a download started here records. -/
def setUpdateAvailable (u : Updater) (fs : FileSystem) (available : Bool)
    (answerYes : Bool) (now : Int) : Outcome :=
  let u1 : Updater := { u with m_updateAvailable := available }
  if u1.updateAvailable && (u1.notifyOnUpdate || u1.notifyOnFinish) then
    let prompt := Effect.updatePrompt u1.latestVersion u1.moduleName u1.m_changelog
      u1.m_mandatoryUpdate
    if answerYes then
      if u1.openUrl ≠ "" then
        { updater := u1, fs := fs, effects := [prompt, Effect.openUrl u1.openUrl] }
      else if u1.downloaderEnabled then
        let d1 := u1.m_downloader.setUrlId u1.url
        let d2 := d1.setFileName ((split u1.downloadUrl '/').getLast?.getD "")
        let d3 := d2.setMandatoryUpdate u1.m_mandatoryUpdate
        let r := d3.startDownload fs now u1.downloadUrl
        { updater := { u1 with m_downloader := r.1 }, fs := r.2.1, effects := prompt :: r.2.2 }
      else
        { updater := u1, fs := fs, effects := [prompt, Effect.openUrl u1.downloadUrl] }
    else if u1.m_mandatoryUpdate then
      { updater := u1, fs := fs, effects := [prompt, Effect.quit] }
    else
      { updater := u1, fs := fs, effects := [prompt] }
  else if u1.notifyOnFinish then
    { updater := u1, fs := fs, effects := [Effect.noUpdatePrompt u1.moduleName] }
  else
    { updater := u1, fs := fs, effects := [] }

/-- Model of `Updater::onReply(reply)`. `fromJson` is `QJsonDocument::fromJson`;
`answerYes` and `now` are passed on to `setUpdateAvailable`. -/
def onReply (fromJson : QByteArray → QJsonDocument) (u : Updater) (fs : FileSystem)
    (reply : QNetworkReply) (answerYes : Bool) (now : Int) : Outcome :=
  let redirect := reply.redirectionTarget
  if redirect ≠ "" then
    let u1 := u.setUrl redirect
    { updater := u1, fs := fs, effects := u1.checkForUpdates }
  else if reply.error ≠ 0 then
    let r := u.setUpdateAvailable fs false answerYes now
    { r with effects := r.effects ++ [Effect.checkingFinished r.updater.url] }
  else if u.customAppcast then
    { updater := u, fs := fs,
      effects := [Effect.appcastDownloaded u.url reply.data, Effect.checkingFinished u.url] }
  else
    let document := fromJson reply.data
    if document.isNull then
      let r := u.setUpdateAvailable fs false answerYes now
      { r with effects := r.effects ++ [Effect.checkingFinished r.updater.url] }
    else
      let updates := (document.object.value "updates").toObject
      let platform := (updates.value u.platformKey).toObject
      let u1 : Updater :=
        { u with
          m_openUrl := (platform.value "open-url").toString
          m_changelog := (platform.value "changelog").toString
          m_downloadUrl := (platform.value "download-url").toString
          m_latestVersion := (platform.value "latest-version").toString }
      let u2 : Updater :=
        if platform.contains "mandatory-update"
        then { u1 with m_mandatoryUpdate := (platform.value "mandatory-update").toBool }
        else u1
      let r := u2.setUpdateAvailable fs (Updater.compare u2.latestVersion u2.moduleVersion)
        answerYes now
      { r with effects := r.effects ++ [Effect.checkingFinished r.updater.url] }

end Updater

/-! ## The paths of `onReply`, named -/

/-- The three paths of `onReply` that end with `setUpdateAvailable` followed by
`emit checkingFinished(url())`. -/
def finishCheck (u : Updater) (fs : FileSystem) (available answerYes : Bool) (now : Int) :
    Outcome :=
  let r := u.setUpdateAvailable fs available answerYes now
  { r with effects := r.effects ++ [Effect.checkingFinished r.updater.url] }

/-- The session as `onReply` sets it up from a parsed manifest, before the
version comparison. -/
def withRecord (u : Updater) (document : QJsonDocument) : Updater :=
  let platform := ((document.object.value "updates").toObject.value u.platformKey).toObject
  let u1 : Updater :=
    { u with
      m_openUrl := (platform.value "open-url").toString
      m_changelog := (platform.value "changelog").toString
      m_downloadUrl := (platform.value "download-url").toString
      m_latestVersion := (platform.value "latest-version").toString }
  if platform.contains "mandatory-update"
  then { u1 with m_mandatoryUpdate := (platform.value "mandatory-update").toBool }
  else u1

/-! ## `QSimpleUpdater`: the registry of sessions -/

/-- The state the registry works on: the two static lists `URLS` and `UPDATERS`
of `QSimpleUpdater.cpp`, the `Updater` objects allocated so far, and the file
system. An `Updater *` is the position of the object in `heap`; `new Updater`
allocates at the end of `heap`. -/
structure Process where
  URLS : List QString
  UPDATERS : List Nat
  heap : List Updater
  fs : FileSystem
deriving DecidableEq, Repr

/-- The state at program start: both lists empty, no `Updater` allocated. -/
def Process.init (fs : FileSystem) : Process :=
  { URLS := [], UPDATERS := [], heap := [], fs := fs }

/-- The object an `Updater *` points to. -/
def Process.deref (p : Process) (updater : Nat) : Option Updater :=
  p.heap.get? updater

/-- Calls a setter of the object an `Updater *` points to. -/
def Process.update (p : Process) (updater : Nat) (f : Updater → Updater) : Process :=
  match p.heap.get? updater with
  | some u => { p with heap := p.heap.set updater (f u) }
  | none => p

namespace QSimpleUpdater

/-- Model of `QSimpleUpdater::getUpdater(url)`: the pointer returned and the state
afterwards. -/
def getUpdater (app : QApp) (p : Process) (url : QString) : Nat × Process :=
  let p1 : Process :=
    if ¬ url ∈ p.URLS then
      let updater := p.heap.length
      { p with
        heap := p.heap ++ [(Updater.new app).setUrl url]
        URLS := p.URLS ++ [url]
        UPDATERS := p.UPDATERS ++ [updater] }
    else p
  (p1.UPDATERS.getD (p1.URLS.indexOf url) 0, p1)

/-- The shape of every per-URL setter: `getUpdater(url)->set...(value)`. -/
def apply (app : QApp) (p : Process) (url : QString) (f : Updater → Updater) : Process :=
  let r := getUpdater app p url
  r.2.update r.1 f

def setDownloadDir (app : QApp) (p : Process) (url dir : QString) : Process :=
  apply app p url (fun u => u.setDownloadDir app dir)
def setModuleName (app : QApp) (p : Process) (url name : QString) : Process :=
  apply app p url (fun u => u.setModuleName name)
def setNotifyOnUpdate (app : QApp) (p : Process) (url : QString) (notify : Bool) : Process :=
  apply app p url (fun u => u.setNotifyOnUpdate notify)
def setNotifyOnFinish (app : QApp) (p : Process) (url : QString) (notify : Bool) : Process :=
  apply app p url (fun u => u.setNotifyOnFinish notify)
def setPlatformKey (app : QApp) (p : Process) (url platform : QString) : Process :=
  apply app p url (fun u => u.setPlatformKey platform)
def setModuleVersion (app : QApp) (p : Process) (url version : QString) : Process :=
  apply app p url (fun u => u.setModuleVersion version)
def setDownloaderEnabled (app : QApp) (p : Process) (url : QString) (enabled : Bool) : Process :=
  apply app p url (fun u => u.setDownloaderEnabled enabled)
def setUserAgentString (app : QApp) (p : Process) (url agent : QString) : Process :=
  apply app p url (fun u => u.setUserAgentString agent)
def setUseCustomAppcast (app : QApp) (p : Process) (url : QString) (customAppcast : Bool) :
    Process :=
  apply app p url (fun u => u.setUseCustomAppcast customAppcast)
def setUseCustomInstallProcedures (app : QApp) (p : Process) (url : QString) (custom : Bool) :
    Process :=
  apply app p url (fun u => u.setUseCustomInstallProcedures custom)
def setMandatoryUpdate (app : QApp) (p : Process) (url : QString) (mandatory_update : Bool) :
    Process :=
  apply app p url (fun u => u.setMandatoryUpdate mandatory_update)

/-- Model of `QSimpleUpdater::checkForUpdates(url)`. -/
def checkForUpdates (app : QApp) (p : Process) (url : QString) : Process × List Effect :=
  let r := getUpdater app p url
  match r.2.deref r.1 with
  | some u => (r.2, u.checkForUpdates)
  | none => (r.2, [])

/-- Destructor `QSimpleUpdater::~QSimpleUpdater`: both lists are cleared; the
objects are handed to `deleteLater` and no longer referenced. -/
def destroy (p : Process) : Process :=
  { p with URLS := [], UPDATERS := [] }

end QSimpleUpdater

/-- What can happen to the registry: a call of its public interface, the
delivery of a manifest reply to a session, an event inside a session's
downloader, the destructor. -/
inductive Action where
  /-- any per-URL getter: its only effect on the state is that of `getUpdater` -/
  | get (url : QString)
  | checkForUpdates (url : QString)
  | setDownloadDir (url dir : QString)
  | setModuleName (url name : QString)
  | setNotifyOnUpdate (url : QString) (notify : Bool)
  | setNotifyOnFinish (url : QString) (notify : Bool)
  | setPlatformKey (url platform : QString)
  | setModuleVersion (url version : QString)
  | setDownloaderEnabled (url : QString) (enabled : Bool)
  | setUserAgentString (url agent : QString)
  | setUseCustomAppcast (url : QString) (customAppcast : Bool)
  | setUseCustomInstallProcedures (url : QString) (custom : Bool)
  | setMandatoryUpdate (url : QString) (mandatory_update : Bool)
  /-- the manager of the session at `updater` delivers `reply` to `onReply` -/
  | reply (updater : Nat) (reply : QNetworkReply) (answerYes : Bool) (now : Int)
  /-- a slot of the downloader of the session at `updater` runs: it can change
  the downloader and the files, nothing else -/
  | downloader (updater : Nat) (d : Downloader) (fs : FileSystem)
  /-- the destructor of the registry -/
  | destroy

/-- One action on the registry: the state afterwards and the effects of the
session concerned, which the registry re-emits under its own signals. -/
def Process.step (app : QApp) (fromJson : QByteArray → QJsonDocument) (p : Process) :
    Action → Process × List Effect
  | Action.get url => ((QSimpleUpdater.getUpdater app p url).2, [])
  | Action.checkForUpdates url => QSimpleUpdater.checkForUpdates app p url
  | Action.setDownloadDir url dir => (QSimpleUpdater.setDownloadDir app p url dir, [])
  | Action.setModuleName url name => (QSimpleUpdater.setModuleName app p url name, [])
  | Action.setNotifyOnUpdate url b => (QSimpleUpdater.setNotifyOnUpdate app p url b, [])
  | Action.setNotifyOnFinish url b => (QSimpleUpdater.setNotifyOnFinish app p url b, [])
  | Action.setPlatformKey url k => (QSimpleUpdater.setPlatformKey app p url k, [])
  | Action.setModuleVersion url v => (QSimpleUpdater.setModuleVersion app p url v, [])
  | Action.setDownloaderEnabled url b => (QSimpleUpdater.setDownloaderEnabled app p url b, [])
  | Action.setUserAgentString url a => (QSimpleUpdater.setUserAgentString app p url a, [])
  | Action.setUseCustomAppcast url b => (QSimpleUpdater.setUseCustomAppcast app p url b, [])
  | Action.setUseCustomInstallProcedures url b =>
    (QSimpleUpdater.setUseCustomInstallProcedures app p url b, [])
  | Action.setMandatoryUpdate url b => (QSimpleUpdater.setMandatoryUpdate app p url b, [])
  | Action.reply updater reply answerYes now =>
    match p.deref updater with
    | some u =>
      let r := u.onReply fromJson p.fs reply answerYes now
      ({ p with heap := p.heap.set updater r.updater, fs := r.fs }, r.effects)
    | none => (p, [])
  | Action.downloader updater d fs =>
    ({ p.update updater (fun u => { u with m_downloader := d }) with fs := fs }, [])
  | Action.destroy => (QSimpleUpdater.destroy p, [])

/-- The states the registry can be in: any number of actions after the start. -/
inductive Reachable (app : QApp) (fromJson : QByteArray → QJsonDocument) : Process → Prop where
  | init (fs : FileSystem) : Reachable app fromJson (Process.init fs)
  | step {p : Process} (a : Action) :
    Reachable app fromJson p → Reachable app fromJson (p.step app fromJson a).1

/-! ## The manifest as the specification reads it -/

/-- The entry `updates.<platformKey>` of a manifest, when the manifest is an
object whose member `updates` is an object whose member `platformKey` is an
object. -/
def manifestEntry (document : QJsonDocument) (platformKey : QString) : Option QJsonObject :=
  match document with
  | QJsonDocument.ofObject root =>
    match root.lookup "updates" with
    | some (QJsonValue.object updates) =>
      match updates.lookup platformKey with
      | some (QJsonValue.object entry) => some entry
      | _ => none
    | _ => none
  | _ => none

/-- The string value of `key` in `updates.<platformKey>`: the empty string when
the entry or the key is absent or the value is not a string. -/
def manifestString (document : QJsonDocument) (platformKey key : QString) : QString :=
  match manifestEntry document platformKey with
  | some entry =>
    match entry.lookup key with
    | some (QJsonValue.string s) => s
    | _ => ""
  | none => ""

/-! ## Sample data -/

/-- An application named `app`, version `1.0`, built for Linux. -/
def sampleApp : QApp :=
  { applicationName := "app", applicationVersion := "1.0", platform := "linux",
    homePath := "/home/user", currentPath := "/" }

/-- A manifest with an entry for `linux` only, announcing version `2.0`. -/
def sampleManifest : QJsonDocument :=
  QJsonDocument.ofObject
    [("updates", QJsonValue.object
      [("linux", QJsonValue.object
        [("open-url", QJsonValue.string ""),
         ("changelog", QJsonValue.string "fixes"),
         ("download-url", QJsonValue.string "https://example.org/files/app-2.0.bin"),
         ("latest-version", QJsonValue.string "2.0"),
         ("mandatory-update", QJsonValue.bool false)])])]

/-- A parser for the samples: the body `[1]` stands for the text of
`sampleManifest`, the body `[2]` for the text of the empty object, every other
body does not parse. -/
def sampleFromJson (body : QByteArray) : QJsonDocument :=
  if body = [1] then sampleManifest
  else if body = [2] then QJsonDocument.ofObject []
  else QJsonDocument.null

/-- An empty file system. -/
def sampleFs : FileSystem := { dirs := [], files := [] }

/-- A finished reply with the given redirect target, error code and body. -/
def sampleReply (redirect : QUrl) (error : Nat) (body : QByteArray) : QNetworkReply :=
  { request := { url := "https://example.org/updates.json", userAgent := none },
    redirectionTarget := redirect, error := error, data := body,
    isFinished := true, contentDisposition := none }

/-- A fresh session for `https://example.org/updates.json`. -/
def sampleUpdater : Updater :=
  (Updater.new sampleApp).setUrl "https://example.org/updates.json"

/-- The sample session after a check that found version `2.0` (the prompt
answered with No), switched to the custom appcast mode afterwards. -/
def sampleUpdaterCustom : Updater :=
  (sampleUpdater.onReply sampleFromJson sampleFs (sampleReply "" 0 [1]) false 0).updater
    |>.setUseCustomAppcast true

/-- A registry state after three actions: the module name of
`https://example.org/updates.json` is set, a check is started, and the reply
redirects the session to `https://example.org/v2.json`. -/
def sampleProcess : Process :=
  (((((Process.init sampleFs).step sampleApp sampleFromJson
      (Action.setModuleName "https://example.org/updates.json" "tool")).1.step
      sampleApp sampleFromJson (Action.checkForUpdates "https://example.org/updates.json")).1).step
      sampleApp sampleFromJson
      (Action.reply 0 (sampleReply "https://example.org/v2.json" 0 []) false 0)).1

/-! ## Well-formed registry states -/

/-- The registry lists fit together: no URL twice, one pointer per URL, and
every pointer refers to an allocated `Updater`. -/
def Process.WF (p : Process) : Prop :=
  p.URLS.Nodup ∧ p.URLS.length = p.UPDATERS.length ∧ ∀ ptr ∈ p.UPDATERS, ptr < p.heap.length

/-! ## Files: reading, renaming, appending -/

/-- Whether a regular file exists at `path`. -/
def FileSystem.fileExists (fs : FileSystem) (path : QString) : Bool :=
  fs.files.any (fun f => f.1 == path)

/-- The content of the file at `path`, if there is one. -/
def FileSystem.read (fs : FileSystem) (path : QString) : Option QByteArray :=
  fs.files.lookup path

/-- The number of files at `path` (at most one in a real directory). -/
def FileSystem.countFiles (fs : FileSystem) (path : QString) : Nat :=
  (fs.files.filter (fun f => f.1 == path)).length

/-- Model of `QFile::rename(oldName, newName)`: nothing happens when there is no
file `oldName` or when `newName` already exists (`QFile` does not overwrite). -/
def FileSystem.rename (fs : FileSystem) (oldName newName : QString) : FileSystem :=
  match fs.files.lookup oldName with
  | some content =>
    if fs.fileExists newName || fs.dirExists newName then fs
    else { fs with files := (newName, content) :: fs.files.filter (fun f => f.1 != oldName) }
  | none => fs

/-- The directory a path lies in: the path without its last segment. -/
def parentDir (path : QString) : QString :=
  match ((path.toList.reverse.dropWhile (fun c => c != '/')).drop 1).reverse with
  | [] => if isAbsolutePath path then "/" else ""
  | cs => String.mk cs

/-- Whether `QFile::open(WriteOnly | Append)` succeeds for `path`: the
directory of the file exists and the path is not itself a directory. -/
def FileSystem.canAppend (fs : FileSystem) (path : QString) : Bool :=
  fs.dirExists (parentDir path) && !fs.dirExists path

/-- Writing `data` at the end of the file at `path`, creating it when new. -/
def FileSystem.append (fs : FileSystem) (path : QString) (data : QByteArray) : FileSystem :=
  { fs with
    files := (path, (fs.read path).getD [] ++ data) :: fs.files.filter (fun f => f.1 != path) }

/-- Model of `QUrl::fromLocalFile(path)`. -/
def fromLocalFile (path : QString) : QUrl := "file://" ++ path

/-! ## `Downloader`: the slots -/

/-- Outcome of a slot of `Downloader`: the object and the file system
afterwards, and the effects in the order they happened. -/
structure DownloaderOutcome where
  downloader : Downloader
  fs : FileSystem
  effects : List Effect
deriving DecidableEq, Repr

/-- The texts the dialog shows for numbers. How Qt renders a number in
`tr("%1 KB").arg(...)` and the like is left open: `receivedSize` and
`totalSize` are the two size texts of `calculateSizes`, `time` is the text
`calculateTimeRemaining` builds for the quotient it computed. -/
structure DialogTexts where
  receivedSize : Int → QString
  totalSize : Int → QString
  time : Int → QString

/-- Conversion of a `qint64` to `int`: the value modulo `2^32`, as a signed number. -/
def toInt32 (x : Int) : Int :=
  (x + 2147483648) % 4294967296 - 2147483648

/-- Model of `QProgressBar::reset`. -/
def ProgressBar.reset (pb : ProgressBar) : ProgressBar :=
  if pb.minimum = -2147483648 then { pb with value := -2147483648 }
  else { pb with value := pb.minimum - 1 }

/-- Model of `QProgressBar::setRange`. -/
def ProgressBar.setRange (pb : ProgressBar) (minimum maximum : Int) : ProgressBar :=
  if minimum ≠ pb.minimum ∨ maximum ≠ pb.maximum then
    let pb1 : ProgressBar := { pb with minimum := minimum, maximum := max minimum maximum }
    if pb1.value < pb1.minimum - 1 ∨ pb1.value > pb1.maximum then pb1.reset else pb1
  else pb

/-- Model of `QProgressBar::setMinimum`. -/
def ProgressBar.setMinimum (pb : ProgressBar) (minimum : Int) : ProgressBar :=
  pb.setRange minimum (max pb.maximum minimum)

/-- Model of `QProgressBar::setMaximum`. -/
def ProgressBar.setMaximum (pb : ProgressBar) (maximum : Int) : ProgressBar :=
  pb.setRange (min pb.minimum maximum) maximum

namespace Downloader

/-- The path of the download, `m_downloadDir.filePath(m_fileName)`. -/
def finalPath (d : Downloader) : QString :=
  d.m_downloadDir.filePath d.m_fileName

/-- The path of the download in progress,
`m_downloadDir.filePath(m_fileName + PARTIAL_DOWN)`. -/
def partialPath (d : Downloader) : QString :=
  d.m_downloadDir.filePath (d.m_fileName ++ PARTIAL_DOWN)

/-- Model of `Downloader::openDownload`. -/
def openDownload (d : Downloader) : List Effect :=
  if d.m_fileName ≠ "" then [Effect.openUrl (fromLocalFile d.finalPath)]
  else [Effect.fileNotFound]

/-- Model of `Downloader::installUpdate`. `answerOk` tells whether the install
prompt, if shown, is answered with Ok. -/
def installUpdate (d : Downloader) (fs : FileSystem) (answerOk : Bool) : DownloaderOutcome :=
  if d.useCustomInstallProcedures then
    { downloader := d, fs := fs, effects := [] }
  else
    let d1 : Downloader :=
      { d with
        stopButton := "关闭"
        downloadLabel := "已完成下载!"
        timeLabel := "即将打开已安装程序，请稍后" ++ "..." }
    let prompt := Effect.installPrompt d1.m_mandatoryUpdate
    if answerOk then
      let opened := if ¬ d1.useCustomInstallProcedures then d1.openDownload else []
      { downloader := d1, fs := fs, effects := prompt :: (opened ++ [Effect.quit]) }
    else if d1.m_mandatoryUpdate then
      { downloader := d1, fs := fs, effects := [prompt, Effect.quit] }
    else
      { downloader := d1, fs := fs, effects := [prompt] }

/-- Model of `Downloader::finished`. Without a reply object (`m_reply` is only
set by `startDownload`) the slot cannot run and nothing happens.
`m_reply->close()` changes nothing the model keeps. -/
def finished (d : Downloader) (fs : FileSystem) (answerOk : Bool) : DownloaderOutcome :=
  match d.m_reply with
  | none => { downloader := d, fs := fs, effects := [] }
  | some reply =>
    if reply.error ≠ 0 then
      { downloader := d, fs := fs.remove d.partialPath, effects := [] }
    else
      let fs1 := fs.rename d.partialPath d.finalPath
      let r := d.installUpdate fs1 answerOk
      { downloader := { r.downloader with visible := false }, fs := r.fs,
        effects := Effect.downloadFinished d.m_url d.finalPath :: r.effects }

/-- The error code `QNetworkReply::OperationCanceledError`. -/
def OperationCanceledError : Nat := 5

/-- Model of `Downloader::cancelDownload`. `answerYes` tells whether the cancel
prompt, if shown, is answered with Yes. `m_reply->abort()` ends the transfer
with `OperationCanceledError` and emits `finished()` before it returns, so the
slot `finished` runs inside it (its install prompt is out of reach: the reply
carries an error). -/
def cancelDownload (d : Downloader) (fs : FileSystem) (answerYes : Bool) : DownloaderOutcome :=
  match d.m_reply with
  | none => { downloader := d, fs := fs, effects := [] }
  | some reply =>
    if ¬ reply.isFinished then
      let prompt := Effect.cancelPrompt d.m_mandatoryUpdate
      if answerYes then
        let d1 : Downloader :=
          { d with
            visible := false
            m_reply := some { reply with error := OperationCanceledError, isFinished := true } }
        let r := d1.finished fs false
        { downloader := r.downloader, fs := r.fs,
          effects := [prompt, Effect.abort] ++ r.effects
            ++ (if d.m_mandatoryUpdate then [Effect.quit] else []) }
      else
        { downloader := d, fs := fs, effects := [prompt] }
    else
      { downloader := { d with visible := false }, fs := fs,
        effects := if d.m_mandatoryUpdate then [Effect.quit] else [] }

/-- Model of `Downloader::saveFile` at clock reading `now`: with a redirect
target the download is started again, otherwise the bytes available from the
reply are read and written at the end of the partial file, provided it can be
opened. -/
def saveFile (d : Downloader) (fs : FileSystem) (now : Int) : DownloaderOutcome :=
  match d.m_reply with
  | none => { downloader := d, fs := fs, effects := [] }
  | some reply =>
    if reply.redirectionTarget ≠ "" then
      let r := d.startDownload fs now reply.redirectionTarget
      { downloader := r.1, fs := r.2.1, effects := r.2.2 }
    else if fs.canAppend d.partialPath then
      { downloader := { d with m_reply := some { reply with data := [] } },
        fs := fs.append d.partialPath reply.data, effects := [] }
    else
      { downloader := d, fs := fs, effects := [] }

/-- Model of `Downloader::calculateSizes`: the label text around the two size texts. -/
def calculateSizes (d : Downloader) (texts : DialogTexts) (received total : Int) : Downloader :=
  { d with
    downloadLabel := "正在下载更新" ++ " (" ++ texts.receivedSize received ++ " " ++ "/" ++ " "
      ++ texts.totalSize total ++ ")" }

/-- Model of `Downloader::metaDataChanged`. `capture` stands for the regular
expression applied to the percent-decoded `Content-Disposition` header: the
text of its first group, empty when the expression does not match. -/
def metaDataChanged (capture : QByteArray → QString) (d : Downloader) : Downloader :=
  match d.m_reply with
  | none => d
  | some reply =>
    match reply.contentDisposition with
    | some header => d.setFileName (capture header)
    | none => d

/-- Model of `Downloader::calculateTimeRemaining` at clock reading `now`.
`difference` is a `uint`; `received / difference` and the division of
`total - received` by it are integer divisions, and the result is `none` when
the second one divides by zero. -/
def calculateTimeRemaining (d : Downloader) (texts : DialogTexts) (now received total : Int) :
    Option Downloader :=
  let difference := (now - d.m_startTime) % 4294967296
  if difference > 0 then
    if Int.tdiv received difference = 0 then none
    else
      let timeRemaining := Int.tdiv (total - received) (Int.tdiv received difference)
      some { d with timeLabel := "剩余时间" ++ ": " ++ texts.time timeRemaining }
  else some d

/-- Model of `Downloader::updateProgress(received, total)`. `now` is the clock
reading of `calculateTimeRemaining`, `later` the one of a restart in
`saveFile`. The result is `none` when `calculateTimeRemaining` divides by zero.
The `qint64` arithmetic is taken without overflow. -/
def updateProgress (texts : DialogTexts) (d : Downloader) (fs : FileSystem)
    (now later received total : Int) : Option DownloaderOutcome :=
  if total > 0 then
    let d1 : Downloader :=
      { d with
        progressBar := ((d.progressBar.setMinimum 0).setMaximum 100).setValue
          (toInt32 (Int.tdiv (received * 100) total)) }
    let d2 := d1.calculateSizes texts received total
    match d2.calculateTimeRemaining texts now received total with
    | none => none
    | some d3 => some (d3.saveFile fs later)
  else
    some
      { downloader :=
          { d with
            progressBar := ((d.progressBar.setMinimum 0).setMaximum 0).setValue (-1)
            downloadLabel := "更新" ++ "..."
            timeLabel := "剩余时间" ++ ": " ++ "..." }
        fs := fs, effects := [] }

end Downloader

/-- What the network and the user can do to a running download. -/
inductive DownloadEvent where
  /-- the headers of the reply arrive, with or without `Content-Disposition` -/
  | metaData (contentDisposition : Option QByteArray)
  /-- signal `downloadProgress(received, total)`: `data` has arrived in addition
  to what is still unread, and the reply carries the redirect target `redirect`
  (empty for none) -/
  | progress (received total : Int) (data : QByteArray) (redirect : QUrl) (now later : Int)
  /-- signal `finished()` of the reply, with its error code (0 for none) -/
  | finished (error : Nat) (answerOk : Bool)
  /-- the stop button is clicked -/
  | cancel (answerYes : Bool)
deriving DecidableEq, Repr

/-- The reply object of the downloader with one attribute changed by the network. -/
def Downloader.withReply (d : Downloader) (f : QNetworkReply → QNetworkReply) : Downloader :=
  match d.m_reply with
  | some reply => { d with m_reply := some (f reply) }
  | none => d

/-- Delivery of one event: the reply object takes the values the event brings,
then the connected slot runs. `none` when the slot divides by zero. -/
def Downloader.deliver (capture : QByteArray → QString) (texts : DialogTexts)
    (d : Downloader) (fs : FileSystem) : DownloadEvent → Option DownloaderOutcome
  | DownloadEvent.metaData h =>
    some { downloader := (d.withReply (fun r => { r with contentDisposition := h })).metaDataChanged
             capture,
           fs := fs, effects := [] }
  | DownloadEvent.progress received total data redirect now later =>
    (d.withReply (fun r => { r with data := r.data ++ data, redirectionTarget := redirect })).updateProgress
      texts fs now later received total
  | DownloadEvent.finished error answerOk =>
    some ((d.withReply (fun r => { r with error := error, isFinished := true })).finished fs answerOk)
  | DownloadEvent.cancel answerYes => some (d.cancelDownload fs answerYes)

/-- Delivery of a sequence of events, the effects collected in order. -/
def Downloader.run (capture : QByteArray → QString) (texts : DialogTexts) :
    DownloaderOutcome → List DownloadEvent → Option DownloaderOutcome
  | s, [] => some s
  | s, e :: es =>
    match Downloader.deliver capture texts s.downloader s.fs e with
    | none => none
    | some r =>
      Downloader.run capture texts
        { downloader := r.downloader, fs := r.fs, effects := s.effects ++ r.effects } es

/-! ## `QSimpleUpdater`: the per-URL getters -/

namespace QSimpleUpdater

/-- The shape of every per-URL getter, `getUpdater(url)->getter()`: the value
read and the state afterwards. -/
def read {β : Type} (app : QApp) (p : Process) (url : QString) (f : Updater → β) :
    Option β × Process :=
  let r := getUpdater app p url
  ((r.2.deref r.1).map f, r.2)

def usesCustomAppcast (app : QApp) (p : Process) (url : QString) : Option Bool × Process :=
  read app p url Updater.customAppcast
def getNotifyOnUpdate (app : QApp) (p : Process) (url : QString) : Option Bool × Process :=
  read app p url Updater.notifyOnUpdate
def getNotifyOnFinish (app : QApp) (p : Process) (url : QString) : Option Bool × Process :=
  read app p url Updater.notifyOnFinish
def getUpdateAvailable (app : QApp) (p : Process) (url : QString) : Option Bool × Process :=
  read app p url Updater.updateAvailable
def getDownloaderEnabled (app : QApp) (p : Process) (url : QString) : Option Bool × Process :=
  read app p url Updater.downloaderEnabled
def usesCustomInstallProcedures (app : QApp) (p : Process) (url : QString) :
    Option Bool × Process :=
  read app p url Updater.useCustomInstallProcedures
def getOpenUrl (app : QApp) (p : Process) (url : QString) : Option QString × Process :=
  read app p url Updater.openUrl
def getChangelog (app : QApp) (p : Process) (url : QString) : Option QString × Process :=
  read app p url Updater.changelog
def getModuleName (app : QApp) (p : Process) (url : QString) : Option QString × Process :=
  read app p url Updater.moduleName
def getDownloadUrl (app : QApp) (p : Process) (url : QString) : Option QString × Process :=
  read app p url Updater.downloadUrl
def getPlatformKey (app : QApp) (p : Process) (url : QString) : Option QString × Process :=
  read app p url Updater.platformKey
def getLatestVersion (app : QApp) (p : Process) (url : QString) : Option QString × Process :=
  read app p url Updater.latestVersion
def getModuleVersion (app : QApp) (p : Process) (url : QString) : Option QString × Process :=
  read app p url Updater.moduleVersion
def getUserAgentString (app : QApp) (p : Process) (url : QString) : Option QString × Process :=
  read app p url Updater.userAgentString

/-- The mandatory flag of the session for `url`. `QSimpleUpdater.cpp` defines a
setter for it but no getter: it is read with `Updater::mandatoryUpdate` from
the session `getUpdater(url)` returns. -/
def getMandatoryUpdate (app : QApp) (p : Process) (url : QString) : Option Bool × Process :=
  read app p url Updater.mandatoryUpdate

/-- Every getter for `url` returns in `q` what it returns in `p`: whatever is
read from the session for `url` has the same value in both states. -/
def SameReadings (app : QApp) (p q : Process) (url : QString) : Prop :=
  ∀ (β : Type) (f : Updater → β), (read app q url f).1 = (read app p url f).1

end QSimpleUpdater

/-- The session registered for `url`, if there is one: the object behind the
pointer stored at the position of `url`. -/
def Process.session (p : Process) (url : QString) : Option Updater :=
  if url ∈ p.URLS then p.heap.get? (p.UPDATERS.getD (p.URLS.indexOf url) 0) else none

/-! ## Sample data for downloads -/

/-- Dialog texts for the samples: every number is shown as the empty text. -/
def sampleTexts : DialogTexts :=
  { receivedSize := fun _ => "", totalSize := fun _ => "", time := fun _ => "" }

/-- The header `Content-Disposition: attachment`, as bytes. -/
def sampleHeader : QByteArray := [97, 116, 116, 97, 99, 104, 109, 101, 110, 116]

/-- The capture for the sample header: it has no `filename=`, the expression
does not match, so the captured text is empty. -/
def sampleCapture (_header : QByteArray) : QString := ""

/-- A download directory that holds `QSU_Update.bin` from an earlier download. -/
def sampleDownloadFs : FileSystem :=
  { dirs := ["/home/user/Downloads"],
    files := [("/home/user/Downloads/QSU_Update.bin", [9, 9])] }

/-- The sample session after the check that found version `2.0`, the prompt
answered with Yes: the download of `https://example.org/files/app-2.0.bin`
has been started at time 0. -/
def sampleStarted : Outcome :=
  sampleUpdater.onReply sampleFromJson sampleDownloadFs (sampleReply "" 0 [1]) true 0

/-- The downloader of `sampleStarted` with the files as they are then. -/
def sampleDownload : DownloaderOutcome :=
  { downloader := sampleStarted.updater.m_downloader, fs := sampleStarted.fs, effects := [] }

/-- Whether the effect is a `downloadFinished` signal. -/
def Effect.isDownloadFinished : Effect → Bool
  | Effect.downloadFinished _ _ => true
  | _ => false

/-- Whether the effect is an install prompt. -/
def Effect.isInstallPrompt : Effect → Bool
  | Effect.installPrompt _ => true
  | _ => false

/-- The sample session holding the record of version `2.0`, no download started. -/
def sampleUpdaterFound : Updater :=
  (sampleUpdater.onReply sampleFromJson sampleFs (sampleReply "" 0 [1]) false 0).updater

/-! ## The texts of the download dialog -/

/-- Model of `QString::arg` for an integer: the decimal digits. -/
def numberText (n : Int) : QString := toString n

/-- The units of the time label. -/
inductive TimeUnit where
  | hours
  | minutes
  | seconds
deriving DecidableEq, Repr

/-- What `calculateTimeRemaining` puts on the time label: the unit, the number
shown, and whether the text without place holder (`tr("1 ...")`) was taken. -/
structure TimeEstimate where
  unit : TimeUnit
  shown : Int
  singular : Bool
deriving DecidableEq, Repr

/-- Model of the conversion `int(v)` of a `double` whose whole part is `v`:
`v` itself when it fits the 32 bits of an `int`. Outside that range C++ leaves
the conversion undefined; the model takes what the conversion instruction of
x86-64 returns there, `INT_MIN`. -/
def doubleToInt (v : Int) : Int :=
  if v < -2147483648 ∨ v > 2147483647 then -2147483648 else v

/-- Model of `int(x + 0.5)` for the quotient `x = num / den` of two integers,
`den > 0`: the whole part of `x + 0.5` is `(2 num + den) / (2 den)` cut off
towards zero, and `doubleToInt` converts it. The `double` operations give the
whole part exactly wherever it fits an `int`, and a value outside the range of
`int` wherever it does not. -/
def intOfPlusHalf (num den : Int) : Int :=
  doubleToInt (Int.tdiv (2 * num + den) (2 * den))

/-- The branches of `Downloader::calculateTimeRemaining` after the quotient
`timeRemaining` (a whole number of seconds) has been computed. The quotient is
stored in a `qreal`: exactly below `2^53`, and beyond that with a value that
still lies above 7200 and whose hour count still does not fit an `int`. -/
def timeEstimate (timeRemaining : Int) : TimeEstimate :=
  if timeRemaining > 7200 then
    let hours := intOfPlusHalf timeRemaining 3600
    if hours > 1 then { unit := TimeUnit.hours, shown := hours, singular := false }
    else { unit := TimeUnit.hours, shown := 1, singular := true }
  else if timeRemaining > 60 then
    let minutes := intOfPlusHalf timeRemaining 60
    if minutes > 1 then { unit := TimeUnit.minutes, shown := minutes, singular := false }
    else { unit := TimeUnit.minutes, shown := 1, singular := true }
  else
    let seconds := intOfPlusHalf timeRemaining 1
    if seconds > 1 then { unit := TimeUnit.seconds, shown := seconds, singular := false }
    else { unit := TimeUnit.seconds, shown := 1, singular := true }

/-- The text `timeString` of `calculateTimeRemaining`: `tr("大概 %1 小时")`,
`tr("%1 分钟")`, `tr("%1 秒")` with the number, or the same texts written with 1. -/
def timeString (timeRemaining : Int) : QString :=
  match (timeEstimate timeRemaining).unit with
  | TimeUnit.hours => "大概 " ++ numberText (timeEstimate timeRemaining).shown ++ " 小时"
  | TimeUnit.minutes => numberText (timeEstimate timeRemaining).shown ++ " 分钟"
  | TimeUnit.seconds => numberText (timeEstimate timeRemaining).shown ++ " 秒"

/-- The number `shown` is `t / unit` rounded to the nearest integer: it differs
from the exact quotient by at most one half. -/
def IsNearest (shown t unit : Int) : Prop :=
  2 * (shown * unit - t) ≤ unit ∧ 2 * (t - shown * unit) ≤ unit

/-- The units of the size texts. -/
inductive SizeUnit where
  | bytes
  | KB
  | MB
deriving DecidableEq, Repr

/-- The unit and the number `Downloader::calculateSizes` hands to `arg` for a
byte count: the count itself below 1024, else the integer quotient by 1024 or
by 1048576 (`total / 1024` and `received / 1024` divide two integers). -/
def sizeNumber (n : Int) : SizeUnit × Int :=
  if n < 1024 then (SizeUnit.bytes, n)
  else if n < 1048576 then (SizeUnit.KB, Int.tdiv n 1024)
  else (SizeUnit.MB, Int.tdiv n 1048576)

/-- The text `receivedSize` of `calculateSizes`: `tr("%1 bytes")`, `tr("%1 KB")`
or `tr("%1 MB")` with the integer of `sizeNumber`. -/
def receivedSizeText (received : Int) : QString :=
  match (sizeNumber received).1 with
  | SizeUnit.bytes => numberText (sizeNumber received).2 ++ " bytes"
  | SizeUnit.KB => numberText (sizeNumber received).2 ++ " KB"
  | SizeUnit.MB => numberText (sizeNumber received).2 ++ " MB"

/-- The text `totalSize` of `calculateSizes`. For KB and MB the integer of
`sizeNumber` goes through `round` and is printed as a `qreal`; `realText q` is
the text `QString::arg` gives for `round(q)`. -/
def totalSizeText (realText : Int → QString) (total : Int) : QString :=
  match (sizeNumber total).1 with
  | SizeUnit.bytes => numberText (sizeNumber total).2 ++ " bytes"
  | SizeUnit.KB => realText (sizeNumber total).2 ++ " KB"
  | SizeUnit.MB => realText (sizeNumber total).2 ++ " MB"

/-- The texts of the dialog as the source builds them, given how a `qreal`
that holds a whole number is printed. -/
def qtTexts (realText : Int → QString) : DialogTexts :=
  { receivedSize := receivedSizeText, totalSize := totalSizeText realText, time := timeString }

/-- Printing of a whole-numbered `qreal` below one million: `QString::arg`
uses the format `g` with six digits, which gives the plain digits there. -/
def sampleRealText (q : Int) : QString := numberText q

/-! ## `QmlUpdater` -/

/-- The members of `QmlUpdater` the appcast handling uses. -/
structure QmlUpdater where
  DEFS_URL : QString
  m_downloadUrl : QString
deriving DecidableEq, Repr

/-- The arguments of the signal `notifyUpdate(ver, name, log)`. -/
structure NotifyUpdate where
  ver : QString
  name : QString
  log : QString
deriving DecidableEq, Repr

namespace QmlUpdater

/-- The loop of `QmlUpdater::compare`, started at index `i` with `remaining`
iterations to go; `some r` is an early `return r`. -/
def compareLoop (versionsX versionsY : List QString) : Nat → Nat → Option Bool
  | 0, _ => none
  | remaining + 1, i =>
    let a := toInt (versionsX.getD i "")
    let b := toInt (versionsY.getD i "")
    if a > b then some true
    else if b > a then some false
    else compareLoop versionsX versionsY remaining (i + 1)

/-- Model of `QmlUpdater::compare(x, y)`. -/
def compare (x y : QString) : Bool :=
  let versionsX := split x '.'
  let versionsY := split y '.'
  let count := min versionsX.length versionsY.length
  match QmlUpdater.compareLoop versionsX versionsY count 0 with
  | some r => r
  | none => decide (versionsY.length < versionsX.length)

/-- Model of `QmlUpdater::displayAppcast(url, reply)`: the object and the
registry afterwards, and the signal `notifyUpdate` if it is emitted. The
getters of the registry are called in the order of the source; a getter
without a session behind its pointer ends the slot. -/
def displayAppcast (app : QApp) (fromJson : QByteArray → QJsonDocument) (q : QmlUpdater)
    (p : Process) (url : QString) (reply : QByteArray) :
    QmlUpdater × Process × Option NotifyUpdate :=
  if url ≠ q.DEFS_URL then (q, p, none)
  else
    let document := fromJson reply
    if document.isNull then (q, p, none)
    else
      let updates := (document.object.value "updates").toObject
      let key := QSimpleUpdater.getPlatformKey app p url
      match key.1 with
      | none => (q, key.2, none)
      | some platformKey =>
        let platform := (updates.value platformKey).toObject
        let m_changelog := (platform.value "changelog").toString
        let q1 : QmlUpdater := { q with m_downloadUrl := (platform.value "download-url").toString }
        let m_latestVersion := (platform.value "latest-version").toString
        let version := QSimpleUpdater.getModuleVersion app key.2 url
        match version.1 with
        | none => (q1, version.2, none)
        | some moduleVersion =>
          if QmlUpdater.compare m_latestVersion moduleVersion then
            let name := QSimpleUpdater.getModuleName app version.2 url
            match name.1 with
            | none => (q1, name.2, none)
            | some moduleName =>
              (q1, name.2,
               some { ver := m_latestVersion, name := moduleName, log := m_changelog })
          else (q1, version.2, none)

end QmlUpdater

/-! ## More sample data -/

/-- A manifest whose entry for `linux` has no `mandatory-update` field. -/
def sampleManifestPlain : QJsonDocument :=
  QJsonDocument.ofObject
    [("updates", QJsonValue.object
      [("linux", QJsonValue.object
        [("changelog", QJsonValue.string "more fixes"),
         ("download-url", QJsonValue.string "https://example.org/files/app-3.0.bin"),
         ("latest-version", QJsonValue.string "3.0")])])]

/-- A parser for `sampleManifestPlain`: the body `[3]` stands for its text,
every other body does not parse. -/
def sampleFromJsonPlain (body : QByteArray) : QJsonDocument :=
  if body = [3] then sampleManifestPlain else QJsonDocument.null

/-- Whether the effect is the update prompt. -/
def Effect.isUpdatePrompt : Effect → Bool
  | Effect.updatePrompt _ _ _ _ => true
  | _ => false

/-- Whether the effect is the no-update notification. -/
def Effect.isNoUpdatePrompt : Effect → Bool
  | Effect.noUpdatePrompt _ => true
  | _ => false

/-- Whether the effect starts a download, opens something outside the
application or ends the application. -/
def Effect.isAction : Effect → Bool
  | Effect.get Manager.downloader _ => true
  | Effect.openUrl _ => true
  | Effect.quit => true
  | _ => false

/-- The object `platform` of `Updater::onReply`: the entry of the manifest for
the platform key, empty when there is none. -/
def platformOf (document : QJsonDocument) (platformKey : QString) : QJsonObject :=
  ((document.object.value "updates").toObject.value platformKey).toObject

/-- The object `QmlUpdater` as constructed, the time stamp left off `DEFS_URL`. -/
def sampleQml : QmlUpdater :=
  { DEFS_URL := "http://wiki.developlink.cloud/vcom/updates.json", m_downloadUrl := "" }

/-- The registry after `QmlUpdater::checkForUpdates`: the five settings for
`DEFS_URL`, then the check. -/
def sampleQmlProcess : Process :=
  [Action.setNotifyOnFinish sampleQml.DEFS_URL true,
   Action.setNotifyOnUpdate sampleQml.DEFS_URL true,
   Action.setUseCustomAppcast sampleQml.DEFS_URL true,
   Action.setDownloaderEnabled sampleQml.DEFS_URL true,
   Action.setMandatoryUpdate sampleQml.DEFS_URL true,
   Action.checkForUpdates sampleQml.DEFS_URL].foldl
    (fun p a => (p.step sampleApp sampleFromJsonPlain a).1) (Process.init sampleFs)

/-! ## Theorems: `Updater::compare` -/

/-- One iteration of the loop. -/
theorem compareLoop_succ (X Y : List QString) (n i : Nat) :
    compareLoop X Y (n + 1) i =
      if toInt (X.getD i "") > toInt (Y.getD i "") then some true
      else if toInt (Y.getD i "") > toInt (X.getD i "") then some false
      else compareLoop X Y n (i + 1) := rfl

/-- The loop runs to its end exactly over a stretch of pairwise equal values. -/
theorem compareLoop_none_of_eq (X Y : List QString) (n i : Nat)
    (h : ∀ j, i ≤ j → j < i + n → toInt (X.getD j "") = toInt (Y.getD j "")) :
    compareLoop X Y n i = none := by
  induction n generalizing i with
  | zero => rfl
  | succ n ih =>
    have h0 := h i (Nat.le_refl i) (by omega)
    have hrest := ih (i + 1) (fun j h1 h2 => h j (by omega) (by omega))
    rw [compareLoop_succ, if_neg (by omega), if_neg (by omega), hrest]

/-- The loop returns at the first index where the values differ. -/
theorem compareLoop_first_diff (X Y : List QString) (n i k : Nat) (hk : k < n)
    (heq : ∀ j, i ≤ j → j < i + k → toInt (X.getD j "") = toInt (Y.getD j ""))
    (hne : toInt (X.getD (i + k) "") ≠ toInt (Y.getD (i + k) "")) :
    compareLoop X Y n i
      = some (decide (toInt (X.getD (i + k) "") > toInt (Y.getD (i + k) ""))) := by
  induction n generalizing i k with
  | zero => omega
  | succ n ih =>
    cases k with
    | zero =>
      have hne0 : toInt (X.getD i "") ≠ toInt (Y.getD i "") := hne
      show compareLoop X Y (n + 1) i
        = some (decide (toInt (X.getD i "") > toInt (Y.getD i "")))
      rw [compareLoop_succ]
      by_cases hgt : toInt (X.getD i "") > toInt (Y.getD i "")
      · rw [if_pos hgt, decide_eq_true hgt]
      · have hlt : toInt (Y.getD i "") > toInt (X.getD i "") := by omega
        rw [if_neg hgt, if_pos hlt, decide_eq_false hgt]
    | succ k =>
      have h0 := heq i (Nat.le_refl i) (by omega)
      have hrest := ih (i + 1) k (by omega) (fun j h1 h2 => heq j (by omega) (by omega))
        (by rw [show i + 1 + k = i + (k + 1) by omega]; exact hne)
      rw [compareLoop_succ, if_neg (by omega), if_neg (by omega), hrest,
        show i + 1 + k = i + (k + 1) by omega]

/-- What the loop returns in one direction fixes what it returns in the other. -/
theorem compareLoop_swap (X Y : List QString) (n i : Nat) :
    compareLoop Y X n i = (compareLoop X Y n i).map (fun b => !b) := by
  induction n generalizing i with
  | zero => rfl
  | succ n ih =>
    rw [compareLoop_succ, compareLoop_succ]
    by_cases hgt : toInt (X.getD i "") > toInt (Y.getD i "")
    · have hn : ¬ toInt (Y.getD i "") > toInt (X.getD i "") := by omega
      rw [if_neg hn, if_pos hgt, if_pos hgt]; rfl
    · by_cases hlt : toInt (Y.getD i "") > toInt (X.getD i "")
      · rw [if_pos hlt, if_neg hgt, if_pos hlt]; rfl
      · rw [if_neg hlt, if_neg hgt, if_neg hgt, if_neg hlt, ih]

/-- When the loop runs to its end, all compared values were pairwise equal. -/
theorem compareLoop_none_imp_eq (X Y : List QString) (n i : Nat)
    (h : compareLoop X Y n i = none) :
    ∀ j, i ≤ j → j < i + n → toInt (X.getD j "") = toInt (Y.getD j "") := by
  induction n generalizing i with
  | zero => intro j h1 h2; omega
  | succ n ih =>
    rw [compareLoop_succ] at h
    by_cases hgt : toInt (X.getD i "") > toInt (Y.getD i "")
    · rw [if_pos hgt] at h; exact absurd h (by simp)
    · by_cases hlt : toInt (Y.getD i "") > toInt (X.getD i "")
      · rw [if_neg hgt, if_pos hlt] at h; exact absurd h (by simp)
      · rw [if_neg hgt, if_neg hlt] at h
        intro j h1 h2
        by_cases hj : j = i
        · subst hj; omega
        · exact ih (i + 1) h j (by omega) (by omega)

/-- Unfolding of `Updater::compare` around the loop. -/
theorem compare_eq (x y : QString) :
    Updater.compare x y =
      match compareLoop (split x '.') (split y '.')
        (min (split x '.').length (split y '.').length) 0 with
      | some r => r
      | none => decide ((split y '.').length < (split x '.').length) := rfl

/-- C1: if `i` is the first index below the common segment count at which the
integer values of the segments of `x` and `y` differ, then `compare(x, y)` is
true exactly when the value of `x` at `i` is the larger one. -/
theorem compare_first_difference (x y : QString) (i : Nat)
    (hi : i < min (split x '.').length (split y '.').length)
    (heq : ∀ j, j < i →
      toInt ((split x '.').getD j "") = toInt ((split y '.').getD j ""))
    (hne : toInt ((split x '.').getD i "") ≠ toInt ((split y '.').getD i "")) :
    (Updater.compare x y = true ↔
      toInt ((split x '.').getD i "") > toInt ((split y '.').getD i "")) := by
  have h := compareLoop_first_diff (split x '.') (split y '.')
    (min (split x '.').length (split y '.').length) 0 i hi
    (fun j _ h2 => heq j (by omega)) (by simpa using hne)
  rw [Nat.zero_add] at h
  rw [compare_eq, h]
  exact decide_eq_true_iff

/-- C1, the examples of the specification: `compare("1.2.3","1.2.2")` and
`compare("2.0","1.9.9")` are true, by the first differing segment. -/
theorem compare_first_difference_witness :
    Updater.compare "1.2.3" "1.2.2" = true ∧ Updater.compare "2.0" "1.9.9" = true :=
  ⟨(compare_first_difference "1.2.3" "1.2.2" 2 (by decide)
      (by intro j hj; interval_cases j <;> decide) (by decide)).2 (by decide),
   (compare_first_difference "2.0" "1.9.9" 0 (by decide)
      (by intro j hj; omega) (by decide)).2 (by decide)⟩

/-- C2: when the first `min(segments(x), segments(y))` segments have pairwise
equal integer values, `compare(x, y)` is true if and only if `x` has strictly
more segments than `y`. -/
theorem compare_equal_common_segments (x y : QString)
    (heq : ∀ j, j < min (split x '.').length (split y '.').length →
      toInt ((split x '.').getD j "") = toInt ((split y '.').getD j "")) :
    (Updater.compare x y = true ↔ (split y '.').length < (split x '.').length) := by
  have h := compareLoop_none_of_eq (split x '.') (split y '.')
    (min (split x '.').length (split y '.').length) 0
    (fun j _ h2 => heq j (by omega))
  rw [compare_eq, h]
  exact decide_eq_true_iff

/-- C2, the examples of the specification: `compare("1.2.3","1.2")` is true,
`compare("1.2","1.2.3")` and `compare("1.2","1.2.0")` are false. -/
theorem compare_equal_common_segments_witness :
    Updater.compare "1.2.3" "1.2" = true ∧ Updater.compare "1.2" "1.2.3" = false ∧
      Updater.compare "1.2" "1.2.0" = false :=
  ⟨(compare_equal_common_segments "1.2.3" "1.2"
      (by intro j hj; have : j < 2 := hj; interval_cases j <;> decide)).2 (by decide),
   by
    have h := compare_equal_common_segments "1.2" "1.2.3"
      (by intro j hj; have : j < 2 := hj; interval_cases j <;> decide)
    cases hc : Updater.compare "1.2" "1.2.3" with
    | false => rfl
    | true => exact absurd (h.1 hc) (by decide),
   by decide⟩

/-- C3: `compare` never holds in both directions, it is false whenever `x` and
`y` have the same number of segments with pairwise equal integer values, and
in particular `compare(x, x)` is false. -/
theorem compare_asymmetric (x y : QString) :
    ¬ (Updater.compare x y = true ∧ Updater.compare y x = true) ∧
    (((split x '.').length = (split y '.').length ∧
        ∀ j, j < (split x '.').length →
          toInt ((split x '.').getD j "") = toInt ((split y '.').getD j "")) →
      Updater.compare x y = false) ∧
    Updater.compare x x = false := by
  refine ⟨?_, ?_, ?_⟩
  · intro h
    obtain ⟨h1, h2⟩ := h
    have hs := compareLoop_swap (split x '.') (split y '.')
      (min (split x '.').length (split y '.').length) 0
    rw [compare_eq] at h1 h2
    rw [Nat.min_comm (split y '.').length, hs] at h2
    cases hl : compareLoop (split x '.') (split y '.')
      (min (split x '.').length (split y '.').length) 0 with
    | none =>
      rw [hl] at h1 h2
      simp at h1 h2
      omega
    | some b =>
      rw [hl] at h1 h2
      simp at h1 h2
      rw [h1] at h2
      exact absurd h2 (by decide)
  · intro h
    obtain ⟨hlen, hv⟩ := h
    have hl := compareLoop_none_of_eq (split x '.') (split y '.')
      (min (split x '.').length (split y '.').length) 0
      (fun j _ h2 => hv j (by omega))
    rw [compare_eq, hl]
    simp [hlen]
  · have hl := compareLoop_none_of_eq (split x '.') (split x '.')
      (min (split x '.').length (split x '.').length) 0 (fun j _ _ => rfl)
    rw [compare_eq, hl]
    simp

/-- C3 on versions that are equal in value but written differently:
`compare("1.2","1.02")` and `compare("1.02","1.2")` are both false. -/
theorem compare_asymmetric_witness :
    Updater.compare "1.2" "1.02" = false ∧ Updater.compare "1.02" "1.2" = false :=
  ⟨(compare_asymmetric "1.2" "1.02").2.1
      ⟨by decide, by intro j hj; have : j < 2 := hj; interval_cases j <;> decide⟩,
   (compare_asymmetric "1.02" "1.2").2.1
      ⟨by decide, by intro j hj; have : j < 2 := hj; interval_cases j <;> decide⟩⟩

/-! ## Theorems: `Updater::onReply` -/

/-- Apart from `m_updateAvailable` and the downloader, `setUpdateAvailable`
leaves every member as it was. -/
theorem setUpdateAvailable_updater (u : Updater) (fs : FileSystem) (a y : Bool) (n : Int) :
    ∃ d, (u.setUpdateAvailable fs a y n).updater
      = { u with m_updateAvailable := a, m_downloader := d } := by
  simp only [Updater.setUpdateAvailable]
  split_ifs <;> exact ⟨_, rfl⟩

/-- No signal is emitted by `setUpdateAvailable`. -/
theorem setUpdateAvailable_noSignal (u : Updater) (fs : FileSystem) (a y : Bool) (n : Int) :
    ∀ e ∈ (u.setUpdateAvailable fs a y n).effects, e.isSignal = false := by
  simp only [Updater.setUpdateAvailable]
  split_ifs <;> simp [Downloader.startDownload, Effect.isSignal]

/-- A `checkingFinished` signal is a signal. -/
theorem isSignal_of_isCheckingFinished (e : Effect) (h : e.isCheckingFinished = true) :
    e.isSignal = true := by
  cases e <;> simp_all [Effect.isCheckingFinished, Effect.isSignal]

/-- An `appcastDownloaded` signal is a signal. -/
theorem isSignal_of_isAppcastDownloaded (e : Effect) (h : e.isAppcastDownloaded = true) :
    e.isSignal = true := by
  cases e <;> simp_all [Effect.isAppcastDownloaded, Effect.isSignal]

/-- Effects without a signal contain no `checkingFinished`. -/
theorem filter_checkingFinished_nil (l : List Effect) (h : ∀ e ∈ l, e.isSignal = false) :
    l.filter Effect.isCheckingFinished = [] := by
  rw [List.filter_eq_nil_iff]
  intro e he hc
  have := isSignal_of_isCheckingFinished e hc
  rw [h e he] at this
  exact absurd this (by decide)

/-- Effects without a signal contain no `appcastDownloaded`. -/
theorem filter_appcastDownloaded_nil (l : List Effect) (h : ∀ e ∈ l, e.isSignal = false) :
    l.filter Effect.isAppcastDownloaded = [] := by
  rw [List.filter_eq_nil_iff]
  intro e he hc
  have := isSignal_of_isAppcastDownloaded e hc
  rw [h e he] at this
  exact absurd this (by decide)

/-- Effects without a signal: filtering for signals leaves nothing. -/
theorem filter_signal_nil (l : List Effect) (h : ∀ e ∈ l, e.isSignal = false) :
    l.filter Effect.isSignal = [] := by
  rw [List.filter_eq_nil_iff]
  intro e he hc
  rw [h e he] at hc
  exact absurd hc (by decide)

/-- The members of the session after `finishCheck`. -/
theorem finishCheck_updater (u : Updater) (fs : FileSystem) (a y : Bool) (n : Int) :
    ∃ d, (finishCheck u fs a y n).updater
      = { u with m_updateAvailable := a, m_downloader := d } :=
  setUpdateAvailable_updater u fs a y n

/-- The effects of `finishCheck`: effects without a signal, then one
`checkingFinished` carrying the session's URL. -/
theorem finishCheck_effects (u : Updater) (fs : FileSystem) (a y : Bool) (n : Int) :
    ∃ l, (∀ e ∈ l, e.isSignal = false) ∧
      (finishCheck u fs a y n).effects = l ++ [Effect.checkingFinished u.url] := by
  obtain ⟨d, hd⟩ := setUpdateAvailable_updater u fs a y n
  refine ⟨(u.setUpdateAvailable fs a y n).effects, setUpdateAvailable_noSignal u fs a y n, ?_⟩
  simp only [finishCheck, hd, Updater.url]

/-- The transport-error path of `onReply`. -/
theorem onReply_error (fromJson : QByteArray → QJsonDocument) (u : Updater) (fs : FileSystem)
    (reply : QNetworkReply) (y : Bool) (n : Int)
    (hr : reply.redirectionTarget = "") (he : reply.error ≠ 0) :
    u.onReply fromJson fs reply y n = finishCheck u fs false y n := by
  simp [Updater.onReply, finishCheck, hr, he]

/-- The custom-appcast path of `onReply`. -/
theorem onReply_custom (fromJson : QByteArray → QJsonDocument) (u : Updater) (fs : FileSystem)
    (reply : QNetworkReply) (y : Bool) (n : Int)
    (hr : reply.redirectionTarget = "") (he : reply.error = 0) (hc : u.customAppcast = true) :
    u.onReply fromJson fs reply y n =
      { updater := u, fs := fs,
        effects := [Effect.appcastDownloaded u.url reply.data, Effect.checkingFinished u.url] } := by
  simp [Updater.onReply, hr, he, hc]

/-- The unparseable-body path of `onReply`. -/
theorem onReply_invalid (fromJson : QByteArray → QJsonDocument) (u : Updater) (fs : FileSystem)
    (reply : QNetworkReply) (y : Bool) (n : Int)
    (hr : reply.redirectionTarget = "") (he : reply.error = 0) (hc : u.customAppcast = false)
    (hp : (fromJson reply.data).isNull = true) :
    u.onReply fromJson fs reply y n = finishCheck u fs false y n := by
  simp [Updater.onReply, finishCheck, hr, he, hc, hp]

/-- The parsed-manifest path of `onReply`. -/
theorem onReply_parsed_eq (fromJson : QByteArray → QJsonDocument) (u : Updater)
    (fs : FileSystem) (reply : QNetworkReply) (y : Bool) (n : Int)
    (hr : reply.redirectionTarget = "") (he : reply.error = 0) (hc : u.customAppcast = false)
    (hp : (fromJson reply.data).isNull = false) :
    u.onReply fromJson fs reply y n =
      finishCheck (withRecord u (fromJson reply.data)) fs
        (Updater.compare (withRecord u (fromJson reply.data)).latestVersion
          (withRecord u (fromJson reply.data)).moduleVersion) y n := by
  simp [Updater.onReply, finishCheck, withRecord, hr, he, hc, hp]

/-- The members `withRecord` sets and the ones it keeps. -/
theorem withRecord_fields (u : Updater) (doc : QJsonDocument) :
    (withRecord u doc).m_openUrl
        = ((((doc.object.value "updates").toObject.value u.platformKey).toObject).value
            "open-url").toString ∧
    (withRecord u doc).m_changelog
        = ((((doc.object.value "updates").toObject.value u.platformKey).toObject).value
            "changelog").toString ∧
    (withRecord u doc).m_downloadUrl
        = ((((doc.object.value "updates").toObject.value u.platformKey).toObject).value
            "download-url").toString ∧
    (withRecord u doc).m_latestVersion
        = ((((doc.object.value "updates").toObject.value u.platformKey).toObject).value
            "latest-version").toString ∧
    (withRecord u doc).m_moduleVersion = u.m_moduleVersion ∧
    (withRecord u doc).m_url = u.m_url := by
  simp only [withRecord]
  split_ifs <;> exact ⟨rfl, rfl, rfl, rfl, rfl, rfl⟩

/-- The chain `document.object().value("updates").toObject().value(key).toObject()
.value(field).toString()` of `onReply` reads the string the specification
describes. -/
theorem value_chain_eq_manifestString (doc : QJsonDocument) (k field : QString) :
    ((((doc.object.value "updates").toObject.value k).toObject).value field).toString
      = manifestString doc k field := by
  cases doc with
  | null => rfl
  | ofArray a => rfl
  | ofObject root =>
    simp only [QJsonDocument.object, QJsonObject.value, manifestString, manifestEntry]
    cases h1 : List.lookup "updates" root with
    | none => rfl
    | some v =>
      cases v with
      | object updates =>
        simp only [QJsonValue.toObject]
        cases h2 : List.lookup k updates with
        | none => rfl
        | some w =>
          cases w with
          | object entry =>
            simp only [QJsonValue.toObject]
            cases h3 : List.lookup field entry with
            | none => rfl
            | some z => cases z <;> rfl
          | _ => rfl
      | _ => rfl

/-- C4: with `useCustomAppcast` off, after an error-free, non-redirect reply
whose body parses as JSON, `openUrl`, `changelog`, `downloadUrl` and
`latestVersion` are the string values of `open-url`, `changelog`,
`download-url` and `latest-version` of `updates.<platformKey>` (empty when
absent or not a string), and `updateAvailable` is
`compare(latestVersion, moduleVersion)`. -/
theorem onReply_parsed_record (fromJson : QByteArray → QJsonDocument) (u : Updater)
    (fs : FileSystem) (reply : QNetworkReply) (answerYes : Bool) (now : Int)
    (hc : u.customAppcast = false) (hr : reply.redirectionTarget = "")
    (he : reply.error = 0) (hp : (fromJson reply.data).isNull = false) :
    (u.onReply fromJson fs reply answerYes now).updater.openUrl
        = manifestString (fromJson reply.data) u.platformKey "open-url" ∧
    (u.onReply fromJson fs reply answerYes now).updater.changelog
        = manifestString (fromJson reply.data) u.platformKey "changelog" ∧
    (u.onReply fromJson fs reply answerYes now).updater.downloadUrl
        = manifestString (fromJson reply.data) u.platformKey "download-url" ∧
    (u.onReply fromJson fs reply answerYes now).updater.latestVersion
        = manifestString (fromJson reply.data) u.platformKey "latest-version" ∧
    (u.onReply fromJson fs reply answerYes now).updater.updateAvailable
        = Updater.compare (u.onReply fromJson fs reply answerYes now).updater.latestVersion
            u.moduleVersion := by
  rw [onReply_parsed_eq fromJson u fs reply answerYes now hr he hc hp]
  obtain ⟨d, hd⟩ := finishCheck_updater (withRecord u (fromJson reply.data)) fs
    (Updater.compare (withRecord u (fromJson reply.data)).latestVersion
      (withRecord u (fromJson reply.data)).moduleVersion) answerYes now
  obtain ⟨h1, h2, h3, h4, h5, _⟩ := withRecord_fields u (fromJson reply.data)
  rw [hd]
  simp only [Updater.openUrl, Updater.changelog, Updater.downloadUrl, Updater.latestVersion,
    Updater.updateAvailable, Updater.moduleVersion, h1, h2, h3, h4, h5,
    value_chain_eq_manifestString]
  exact ⟨trivial, trivial, trivial, trivial, trivial⟩

/-- C4 on the sample manifest: the fresh session for version `1.0` ends with
`latestVersion = "2.0"`, the download URL of the manifest, and an update
available. -/
theorem onReply_parsed_record_witness :
    (sampleUpdater.onReply sampleFromJson sampleFs (sampleReply "" 0 [1]) false 0).updater.latestVersion
        = "2.0" ∧
    (sampleUpdater.onReply sampleFromJson sampleFs (sampleReply "" 0 [1]) false 0).updater.downloadUrl
        = "https://example.org/files/app-2.0.bin" ∧
    (sampleUpdater.onReply sampleFromJson sampleFs (sampleReply "" 0 [1]) false 0).updater.updateAvailable
        = true := by
  have h := onReply_parsed_record sampleFromJson sampleUpdater sampleFs (sampleReply "" 0 [1])
    false 0 (by decide) (by decide) (by decide) (by decide)
  refine ⟨h.2.2.2.1.trans (by decide), h.2.2.1.trans (by decide), ?_⟩
  rw [h.2.2.2.2, h.2.2.2.1]
  decide

/-- C5, as stated, fails: the sample session has an update available from an
earlier check and was then switched to the custom appcast mode; an error-free,
non-redirect reply whose body does not parse leaves `updateAvailable` true. -/
theorem onReply_unparseable_counterexample :
    (sampleReply "" 0 [0]).redirectionTarget = "" ∧
    (sampleReply "" 0 [0]).error = 0 ∧
    (sampleFromJson (sampleReply "" 0 [0]).data).isNull = true ∧
    (sampleUpdaterCustom.onReply sampleFromJson sampleFs (sampleReply "" 0 [0]) false
      0).updater.updateAvailable = true := by
  decide

/-- C5, amended: an error-free, non-redirect reply whose body cannot be parsed
as JSON emits exactly one `checkingFinished`, carrying the session's URL; with
`useCustomAppcast` off it leaves `updateAvailable` false, with
`useCustomAppcast` on `updateAvailable` keeps the value it had. -/
theorem onReply_unparseable (fromJson : QByteArray → QJsonDocument) (u : Updater)
    (fs : FileSystem) (reply : QNetworkReply) (answerYes : Bool) (now : Int)
    (hr : reply.redirectionTarget = "") (he : reply.error = 0)
    (hp : (fromJson reply.data).isNull = true) :
    (u.onReply fromJson fs reply answerYes now).effects.filter Effect.isCheckingFinished
        = [Effect.checkingFinished u.url] ∧
    (u.customAppcast = false →
      (u.onReply fromJson fs reply answerYes now).updater.updateAvailable = false) ∧
    (u.customAppcast = true →
      (u.onReply fromJson fs reply answerYes now).updater.updateAvailable
        = u.updateAvailable) := by
  cases hc : u.customAppcast with
  | true =>
    rw [onReply_custom fromJson u fs reply answerYes now hr he hc]
    simp [Effect.isCheckingFinished]
  | false =>
    rw [onReply_invalid fromJson u fs reply answerYes now hr he hc hp]
    obtain ⟨d, hd⟩ := finishCheck_updater u fs false answerYes now
    obtain ⟨l, hl, hle⟩ := finishCheck_effects u fs false answerYes now
    rw [hd, hle, List.filter_append, filter_checkingFinished_nil l hl]
    simp [Effect.isCheckingFinished, Updater.updateAvailable]

/-- C5, amended, on the sample session: a body that does not parse leaves the
fresh session without an update and emits one `checkingFinished`. -/
theorem onReply_unparseable_witness :
    (sampleUpdater.onReply sampleFromJson sampleFs (sampleReply "" 0 [0]) false
        0).effects.filter Effect.isCheckingFinished
      = [Effect.checkingFinished "https://example.org/updates.json"] ∧
    (sampleUpdater.onReply sampleFromJson sampleFs (sampleReply "" 0 [0]) false
        0).updater.updateAvailable = false :=
  have h := onReply_unparseable sampleFromJson sampleUpdater sampleFs (sampleReply "" 0 [0])
    false 0 (by decide) (by decide) (by decide)
  ⟨h.1, h.2.1 (by decide)⟩

/-- A split never yields the empty list. -/
theorem splitAux_length_pos (sep : Char) (cs cur : List Char) :
    0 < (splitAux sep cs cur).length := by
  induction cs generalizing cur with
  | nil => simp [splitAux]
  | cons c cs ih =>
    unfold splitAux
    split_ifs
    · simp
    · exact ih (c :: cur)

/-- Every string has at least one segment. -/
theorem split_length_pos (s : QString) (sep : Char) : 0 < (split s sep).length := by
  simp only [split, List.length_map]
  exact splitAux_length_pos sep s.toList []

/-- Against the empty version string, `compare` is true exactly when the first
segment of the other version has a negative value. -/
theorem compare_empty_left (y : QString) :
    Updater.compare "" y = decide (toInt ((split y '.').getD 0 "") < 0) := by
  have hs : split "" '.' = [""] := by decide
  have hpos := split_length_pos y '.'
  have h0 : toInt ((split "" '.').getD 0 "") = 0 := by decide
  rw [compare_eq, hs] at *
  have hmin : min ([""] : List QString).length (split y '.').length = 1 :=
    Nat.min_eq_left hpos
  rw [hmin, compareLoop_succ, h0]
  by_cases hneg : toInt ((split y '.').getD 0 "") < 0
  · rw [if_pos hneg, decide_eq_true hneg]
  · rw [if_neg hneg, decide_eq_false hneg]
    by_cases hposv : toInt ((split y '.').getD 0 "") > 0
    · rw [if_pos hposv]
    · rw [if_neg hposv]
      show decide ((split y '.').length < 1) = false
      exact decide_eq_false (by omega)

/-- An object without a member for the key yields the empty object there. -/
theorem toObject_value_of_not_contains (o : QJsonObject) (k : QString)
    (h : o.contains k = false) : (o.value k).toObject = [] := by
  unfold QJsonObject.contains at h
  unfold QJsonObject.value
  cases hl : List.lookup k o with
  | none => rfl
  | some v => rw [hl] at h; exact absurd h (by simp)

/-- C6, as stated, fails: for the module version `-1` and the manifest `{}`,
which has no entry for the platform key, the check ends with an empty
`latestVersion` and `updateAvailable` true. -/
theorem onReply_no_entry_counterexample :
    (sampleUpdater.setModuleVersion "-1").customAppcast = false ∧
    (sampleFromJson (sampleReply "" 0 [2]).data).isNull = false ∧
    (((sampleFromJson (sampleReply "" 0 [2]).data).object.value "updates").toObject.contains
      (sampleUpdater.setModuleVersion "-1").platformKey) = false ∧
    ((sampleUpdater.setModuleVersion "-1").onReply sampleFromJson sampleFs
      (sampleReply "" 0 [2]) false 0).updater.latestVersion = "" ∧
    ((sampleUpdater.setModuleVersion "-1").onReply sampleFromJson sampleFs
      (sampleReply "" 0 [2]) false 0).updater.updateAvailable = true := by
  decide

/-- C6, amended: with `useCustomAppcast` off and a valid JSON manifest whose
`updates` object has no entry for the session's platform key, after the check
`openUrl`, `changelog`, `downloadUrl` and `latestVersion` are empty, and
`updateAvailable` is false exactly when the first segment of the module
version has a non-negative integer value. -/
theorem onReply_no_entry (fromJson : QByteArray → QJsonDocument) (u : Updater)
    (fs : FileSystem) (reply : QNetworkReply) (answerYes : Bool) (now : Int)
    (hc : u.customAppcast = false) (hr : reply.redirectionTarget = "")
    (he : reply.error = 0) (hp : (fromJson reply.data).isNull = false)
    (hno : (((fromJson reply.data).object.value "updates").toObject.contains u.platformKey)
      = false) :
    (u.onReply fromJson fs reply answerYes now).updater.openUrl = "" ∧
    (u.onReply fromJson fs reply answerYes now).updater.changelog = "" ∧
    (u.onReply fromJson fs reply answerYes now).updater.downloadUrl = "" ∧
    (u.onReply fromJson fs reply answerYes now).updater.latestVersion = "" ∧
    ((u.onReply fromJson fs reply answerYes now).updater.updateAvailable = false ↔
      0 ≤ toInt ((split u.moduleVersion '.').getD 0 "")) := by
  rw [onReply_parsed_eq fromJson u fs reply answerYes now hr he hc hp]
  obtain ⟨d, hd⟩ := finishCheck_updater (withRecord u (fromJson reply.data)) fs
    (Updater.compare (withRecord u (fromJson reply.data)).latestVersion
      (withRecord u (fromJson reply.data)).moduleVersion) answerYes now
  obtain ⟨h1, h2, h3, h4, h5, _⟩ := withRecord_fields u (fromJson reply.data)
  have hempty := toObject_value_of_not_contains _ _ hno
  rw [hempty] at h1 h2 h3 h4
  have e1 : (withRecord u (fromJson reply.data)).m_openUrl = "" := h1
  have e2 : (withRecord u (fromJson reply.data)).m_changelog = "" := h2
  have e3 : (withRecord u (fromJson reply.data)).m_downloadUrl = "" := h3
  have e4 : (withRecord u (fromJson reply.data)).m_latestVersion = "" := h4
  rw [hd]
  simp only [Updater.openUrl, Updater.changelog, Updater.downloadUrl, Updater.latestVersion,
    Updater.updateAvailable, Updater.moduleVersion, e1, e2, e3, e4, h5, compare_empty_left]
  refine ⟨trivial, trivial, trivial, trivial, ?_⟩
  rw [decide_eq_false_iff_not]
  omega

/-- C6, amended, on the sample session (module version `1.0`) and the
manifest `{}`: the record is empty and no update is available. -/
theorem onReply_no_entry_witness :
    (sampleUpdater.onReply sampleFromJson sampleFs (sampleReply "" 0 [2]) false
        0).updater.latestVersion = "" ∧
    (sampleUpdater.onReply sampleFromJson sampleFs (sampleReply "" 0 [2]) false
        0).updater.updateAvailable = false :=
  have h := onReply_no_entry sampleFromJson sampleUpdater sampleFs (sampleReply "" 0 [2])
    false 0 (by decide) (by decide) (by decide) (by decide) (by decide)
  ⟨h.2.2.2.1, h.2.2.2.2.2 (by decide)⟩

/-- C7: a non-redirect reply with a transport error sets `updateAvailable` to
false, leaves `openUrl`, `changelog`, `downloadUrl`, `latestVersion` and the
mandatory flag as they were, emits no `appcastDownloaded` and emits exactly one
`checkingFinished`, whatever the session state and configuration. -/
theorem onReply_transport_error (fromJson : QByteArray → QJsonDocument) (u : Updater)
    (fs : FileSystem) (reply : QNetworkReply) (answerYes : Bool) (now : Int)
    (hr : reply.redirectionTarget = "") (he : reply.error ≠ 0) :
    (u.onReply fromJson fs reply answerYes now).updater.updateAvailable = false ∧
    (u.onReply fromJson fs reply answerYes now).updater.openUrl = u.openUrl ∧
    (u.onReply fromJson fs reply answerYes now).updater.changelog = u.changelog ∧
    (u.onReply fromJson fs reply answerYes now).updater.downloadUrl = u.downloadUrl ∧
    (u.onReply fromJson fs reply answerYes now).updater.latestVersion = u.latestVersion ∧
    (u.onReply fromJson fs reply answerYes now).updater.mandatoryUpdate = u.mandatoryUpdate ∧
    (u.onReply fromJson fs reply answerYes now).effects.filter Effect.isAppcastDownloaded
        = [] ∧
    (u.onReply fromJson fs reply answerYes now).effects.filter Effect.isCheckingFinished
        = [Effect.checkingFinished u.url] := by
  rw [onReply_error fromJson u fs reply answerYes now hr he]
  obtain ⟨d, hd⟩ := finishCheck_updater u fs false answerYes now
  obtain ⟨l, hl, hle⟩ := finishCheck_effects u fs false answerYes now
  rw [hd, hle, List.filter_append, List.filter_append, filter_checkingFinished_nil l hl,
    filter_appcastDownloaded_nil l hl]
  simp [Effect.isCheckingFinished, Effect.isAppcastDownloaded, Updater.updateAvailable,
    Updater.openUrl, Updater.changelog, Updater.downloadUrl, Updater.latestVersion,
    Updater.mandatoryUpdate]

/-- C7 on the sample session that holds the record of version `2.0` and has
the custom appcast mode on: after a reply with error code 3 the record is still
there, `updateAvailable` is false and one `checkingFinished` was emitted. -/
theorem onReply_transport_error_witness :
    (sampleUpdaterCustom.onReply sampleFromJson sampleFs (sampleReply "" 3 []) true
        0).updater.updateAvailable = false ∧
    (sampleUpdaterCustom.onReply sampleFromJson sampleFs (sampleReply "" 3 []) true
        0).updater.latestVersion = "2.0" ∧
    (sampleUpdaterCustom.onReply sampleFromJson sampleFs (sampleReply "" 3 []) true
        0).effects.filter Effect.isCheckingFinished
      = [Effect.checkingFinished "https://example.org/updates.json"] :=
  have h := onReply_transport_error sampleFromJson sampleUpdaterCustom sampleFs
    (sampleReply "" 3 []) true 0 (by decide) (by decide)
  ⟨h.1, h.2.2.2.2.1.trans (by decide), h.2.2.2.2.2.2.2⟩

/-- C8: with `useCustomAppcast` set, an error-free, non-redirect reply emits
`appcastDownloaded(url, body)` with the raw bytes of the reply and then
`checkingFinished(url)`, and nothing else; the session and the files are left
exactly as they were, and the outcome does not depend on the JSON parser. -/
theorem onReply_custom_appcast (fromJson : QByteArray → QJsonDocument) (u : Updater)
    (fs : FileSystem) (reply : QNetworkReply) (answerYes : Bool) (now : Int)
    (hc : u.customAppcast = true) (hr : reply.redirectionTarget = "")
    (he : reply.error = 0) :
    (u.onReply fromJson fs reply answerYes now).effects
        = [Effect.appcastDownloaded u.url reply.data, Effect.checkingFinished u.url] ∧
    (u.onReply fromJson fs reply answerYes now).updater = u ∧
    (u.onReply fromJson fs reply answerYes now).fs = fs ∧
    ∀ (otherParser : QByteArray → QJsonDocument) (otherAnswer : Bool) (otherNow : Int),
      u.onReply otherParser fs reply otherAnswer otherNow
        = u.onReply fromJson fs reply answerYes now := by
  refine ⟨?_, ?_, ?_, ?_⟩
  · rw [onReply_custom fromJson u fs reply answerYes now hr he hc]
  · rw [onReply_custom fromJson u fs reply answerYes now hr he hc]
  · rw [onReply_custom fromJson u fs reply answerYes now hr he hc]
  · intro p a n
    rw [onReply_custom fromJson u fs reply answerYes now hr he hc,
      onReply_custom p u fs reply a n hr he hc]

/-- C8 on the sample session in custom appcast mode: the body `[1]`, which
the parser would accept, is handed out raw, and the record of the earlier
check stays. -/
theorem onReply_custom_appcast_witness :
    (sampleUpdaterCustom.onReply sampleFromJson sampleFs (sampleReply "" 0 [1]) true 0).effects
      = [Effect.appcastDownloaded "https://example.org/updates.json" [1],
         Effect.checkingFinished "https://example.org/updates.json"] ∧
    (sampleUpdaterCustom.onReply sampleFromJson sampleFs (sampleReply "" 0 [1]) true 0).updater
      = sampleUpdaterCustom :=
  have h := onReply_custom_appcast sampleFromJson sampleUpdaterCustom sampleFs
    (sampleReply "" 0 [1]) true 0 (by decide) (by decide) (by decide)
  ⟨h.1.trans (by decide), h.2.1⟩

/-- Without a redirect target, the effects of `onReply` are effects without a
`checkingFinished` followed by one `checkingFinished` with the session's URL. -/
theorem onReply_effects_shape (fromJson : QByteArray → QJsonDocument) (u : Updater)
    (fs : FileSystem) (reply : QNetworkReply) (y : Bool) (n : Int)
    (hr : reply.redirectionTarget = "") :
    ∃ l, l.filter Effect.isCheckingFinished = [] ∧
      (u.onReply fromJson fs reply y n).effects = l ++ [Effect.checkingFinished u.url] := by
  by_cases he : reply.error = 0
  · cases hc : u.customAppcast with
    | true =>
      rw [onReply_custom fromJson u fs reply y n hr he hc]
      exact ⟨[Effect.appcastDownloaded u.url reply.data], rfl, rfl⟩
    | false =>
      cases hp : (fromJson reply.data).isNull with
      | true =>
        rw [onReply_invalid fromJson u fs reply y n hr he hc hp]
        obtain ⟨l, hl, hle⟩ := finishCheck_effects u fs false y n
        exact ⟨l, filter_checkingFinished_nil l hl, hle⟩
      | false =>
        rw [onReply_parsed_eq fromJson u fs reply y n hr he hc hp]
        obtain ⟨l, hl, hle⟩ := finishCheck_effects (withRecord u (fromJson reply.data)) fs
          (Updater.compare (withRecord u (fromJson reply.data)).latestVersion
            (withRecord u (fromJson reply.data)).moduleVersion) y n
        have hurl : (withRecord u (fromJson reply.data)).url = u.url :=
          (withRecord_fields u (fromJson reply.data)).2.2.2.2.2
        rw [hurl] at hle
        exact ⟨l, filter_checkingFinished_nil l hl, hle⟩
  · rw [onReply_error fromJson u fs reply y n hr he]
    obtain ⟨l, hl, hle⟩ := finishCheck_effects u fs false y n
    exact ⟨l, filter_checkingFinished_nil l hl, hle⟩

/-- C9: a reply without redirect target emits `checkingFinished` exactly once,
as the last effect of the handler, on every path; a reply with a redirect
target emits no signal, sets the session URL to the target, issues one request
to it, and leaves `updateAvailable` and the record as they were. -/
theorem onReply_checkingFinished_once (fromJson : QByteArray → QJsonDocument) (u : Updater)
    (fs : FileSystem) (reply : QNetworkReply) (answerYes : Bool) (now : Int) :
    (reply.redirectionTarget = "" →
      (u.onReply fromJson fs reply answerYes now).effects.filter Effect.isCheckingFinished
          = [Effect.checkingFinished u.url] ∧
      (u.onReply fromJson fs reply answerYes now).effects.getLast?
          = some (Effect.checkingFinished u.url)) ∧
    (reply.redirectionTarget ≠ "" →
      (u.onReply fromJson fs reply answerYes now).effects.filter Effect.isSignal = [] ∧
      (u.onReply fromJson fs reply answerYes now).updater.url = reply.redirectionTarget ∧
      (u.onReply fromJson fs reply answerYes now).effects
          = [Effect.get Manager.updater
              (mkRequest reply.redirectionTarget u.userAgentString)] ∧
      (u.onReply fromJson fs reply answerYes now).updater
          = { u with m_url := reply.redirectionTarget } ∧
      (u.onReply fromJson fs reply answerYes now).fs = fs) := by
  constructor
  · intro hr
    obtain ⟨l, hl, hle⟩ := onReply_effects_shape fromJson u fs reply answerYes now hr
    rw [hle, List.filter_append, hl, List.getLast?_concat]
    exact ⟨rfl, rfl⟩
  · intro hr
    simp [Updater.onReply, hr, Updater.checkForUpdates, Updater.setUrl, Updater.url,
      Updater.userAgentString, Effect.isSignal]

/-- C9 on the sample session: the transport-error, custom-appcast,
unparseable-body and parsed-manifest paths each end with the single
`checkingFinished`, and a redirect to `https://example.org/v2.json` only moves
the session there. -/
theorem onReply_checkingFinished_once_witness :
    (sampleUpdater.onReply sampleFromJson sampleFs (sampleReply "" 3 []) true 0).effects.getLast?
      = some (Effect.checkingFinished "https://example.org/updates.json") ∧
    (sampleUpdaterCustom.onReply sampleFromJson sampleFs (sampleReply "" 0 [1]) true
        0).effects.filter Effect.isCheckingFinished
      = [Effect.checkingFinished "https://example.org/updates.json"] ∧
    (sampleUpdater.onReply sampleFromJson sampleFs (sampleReply "" 0 [0]) true 0).effects.getLast?
      = some (Effect.checkingFinished "https://example.org/updates.json") ∧
    (sampleUpdater.onReply sampleFromJson sampleFs (sampleReply "" 0 [1]) true
        0).effects.filter Effect.isCheckingFinished
      = [Effect.checkingFinished "https://example.org/updates.json"] ∧
    (sampleUpdater.onReply sampleFromJson sampleFs
        (sampleReply "https://example.org/v2.json" 0 []) true 0).updater.url
      = "https://example.org/v2.json" :=
  ⟨((onReply_checkingFinished_once sampleFromJson sampleUpdater sampleFs
      (sampleReply "" 3 []) true 0).1 (by decide)).2,
   ((onReply_checkingFinished_once sampleFromJson sampleUpdaterCustom sampleFs
      (sampleReply "" 0 [1]) true 0).1 (by decide)).1.trans (by decide),
   ((onReply_checkingFinished_once sampleFromJson sampleUpdater sampleFs
      (sampleReply "" 0 [0]) true 0).1 (by decide)).2,
   ((onReply_checkingFinished_once sampleFromJson sampleUpdater sampleFs
      (sampleReply "" 0 [1]) true 0).1 (by decide)).1,
   ((onReply_checkingFinished_once sampleFromJson sampleUpdater sampleFs
      (sampleReply "https://example.org/v2.json" 0 []) true 0).2 (by decide)).2.1⟩

/-! ## Theorems: the registry -/

/-- The start state is well formed. -/
theorem Process.init_wf (fs : FileSystem) : (Process.init fs).WF := by
  simp [Process.init, Process.WF]

/-- Looking a URL up, and creating its session when it is new, keeps the
registry well formed. -/
theorem getUpdater_wf (app : QApp) (p : Process) (url : QString) (h : p.WF) :
    (QSimpleUpdater.getUpdater app p url).2.WF := by
  obtain ⟨h1, h2, h3⟩ := h
  by_cases hu : url ∈ p.URLS
  · simp only [QSimpleUpdater.getUpdater, hu, not_true_eq_false, if_false]
    exact ⟨h1, h2, h3⟩
  · simp only [QSimpleUpdater.getUpdater, hu, not_false_eq_true, if_true]
    refine ⟨?_, ?_, ?_⟩
    · rw [List.nodup_append]
      refine ⟨h1, List.nodup_singleton url, ?_⟩
      intro x hx hx2
      rw [List.mem_singleton] at hx2
      exact hu (hx2 ▸ hx)
    · simp [h2]
    · intro ptr hptr
      simp only [List.mem_append, List.mem_singleton] at hptr
      simp only [List.length_append, List.length_singleton]
      rcases hptr with hptr | hptr
      · have := h3 ptr hptr
        omega
      · omega

/-- Calling a setter on an object leaves the lists and the size of the heap alone. -/
theorem update_wf (p : Process) (ptr : Nat) (f : Updater → Updater) (h : p.WF) :
    (p.update ptr f).WF := by
  unfold Process.update
  cases hg : p.heap.get? ptr with
  | none => exact h
  | some u =>
    obtain ⟨h1, h2, h3⟩ := h
    exact ⟨h1, h2, fun q hq => by simpa using h3 q hq⟩

/-- Every per-URL setter keeps the registry well formed. -/
theorem apply_wf (app : QApp) (p : Process) (url : QString) (f : Updater → Updater)
    (h : p.WF) : (QSimpleUpdater.apply app p url f).WF :=
  update_wf _ _ f (getUpdater_wf app p url h)

/-- Every action keeps the registry well formed. -/
theorem step_wf (app : QApp) (fromJson : QByteArray → QJsonDocument) (p : Process)
    (a : Action) (h : p.WF) : (p.step app fromJson a).1.WF := by
  cases a with
  | get url => exact getUpdater_wf app p url h
  | checkForUpdates url =>
    simp only [Process.step, QSimpleUpdater.checkForUpdates]
    split <;> exact getUpdater_wf app p url h
  | setDownloadDir url dir => exact apply_wf app p url _ h
  | setModuleName url name => exact apply_wf app p url _ h
  | setNotifyOnUpdate url b => exact apply_wf app p url _ h
  | setNotifyOnFinish url b => exact apply_wf app p url _ h
  | setPlatformKey url k => exact apply_wf app p url _ h
  | setModuleVersion url v => exact apply_wf app p url _ h
  | setDownloaderEnabled url b => exact apply_wf app p url _ h
  | setUserAgentString url ag => exact apply_wf app p url _ h
  | setUseCustomAppcast url b => exact apply_wf app p url _ h
  | setUseCustomInstallProcedures url b => exact apply_wf app p url _ h
  | setMandatoryUpdate url b => exact apply_wf app p url _ h
  | reply updater reply answerYes now =>
    simp only [Process.step]
    cases hd : p.deref updater with
    | none => exact h
    | some u =>
      obtain ⟨h1, h2, h3⟩ := h
      exact ⟨h1, h2, fun q hq => by simpa using h3 q hq⟩
  | downloader updater d fs =>
    have hw := update_wf p updater (fun u => { u with m_downloader := d }) h
    exact ⟨hw.1, hw.2.1, hw.2.2⟩
  | destroy =>
    simp [Process.step, QSimpleUpdater.destroy, Process.WF]

/-- Every reachable registry state is well formed. -/
theorem reachable_wf (app : QApp) (fromJson : QByteArray → QJsonDocument) (p : Process)
    (h : Reachable app fromJson p) : p.WF := by
  induction h with
  | init fs => exact Process.init_wf fs
  | step a _ ih => exact step_wf app fromJson _ a ih

/-- After `getUpdater(url)` the URL is registered. -/
theorem getUpdater_mem (app : QApp) (p : Process) (url : QString) :
    url ∈ (QSimpleUpdater.getUpdater app p url).2.URLS := by
  by_cases hu : url ∈ p.URLS
  · simp only [QSimpleUpdater.getUpdater, hu, not_true_eq_false, if_false]
  · simp [QSimpleUpdater.getUpdater, hu]

/-- For a registered URL `getUpdater` changes nothing and returns the pointer
stored at the position of the URL. -/
theorem getUpdater_of_mem (app : QApp) (p : Process) (url : QString) (hu : url ∈ p.URLS) :
    QSimpleUpdater.getUpdater app p url = (p.UPDATERS.getD (p.URLS.indexOf url) 0, p) := by
  simp only [QSimpleUpdater.getUpdater, hu, not_true_eq_false, if_false]

/-- In a well-formed registry the pointer `getUpdater` returns refers to an
allocated object. -/
theorem getUpdater_valid (app : QApp) (p : Process) (url : QString) (h : p.WF) :
    (QSimpleUpdater.getUpdater app p url).1
      < (QSimpleUpdater.getUpdater app p url).2.heap.length := by
  have hw := getUpdater_wf app p url h
  have hm := getUpdater_mem app p url
  have e : (QSimpleUpdater.getUpdater app p url).1
      = (QSimpleUpdater.getUpdater app p url).2.UPDATERS.getD
          ((QSimpleUpdater.getUpdater app p url).2.URLS.indexOf url) 0 := by
    by_cases hu : url ∈ p.URLS
    · simp only [QSimpleUpdater.getUpdater, hu, not_true_eq_false, if_false]
    · simp only [QSimpleUpdater.getUpdater, hu, not_false_eq_true, if_true]
  obtain ⟨_, h2, h3⟩ := hw
  have hidx : (QSimpleUpdater.getUpdater app p url).2.URLS.indexOf url
      < (QSimpleUpdater.getUpdater app p url).2.UPDATERS.length := by
    rw [← h2]
    exact List.indexOf_lt_length.mpr hm
  rw [e, List.getD_eq_getElem _ _ hidx]
  exact h3 _ (List.getElem_mem _)

/-- In a well-formed registry, `getUpdater` of a URL that is not registered
returns a pointer to a new `Updater` whose URL has been set. -/
theorem getUpdater_new (app : QApp) (p : Process) (url : QString) (h : p.WF)
    (hu : url ∉ p.URLS) :
    (QSimpleUpdater.getUpdater app p url).2.deref (QSimpleUpdater.getUpdater app p url).1
      = some ((Updater.new app).setUrl url) := by
  obtain ⟨_, h2, _⟩ := h
  simp only [QSimpleUpdater.getUpdater, hu, not_false_eq_true, if_true, Process.deref]
  have hi : List.indexOf url (p.URLS ++ [url]) = p.URLS.length := by
    rw [List.indexOf_append_of_not_mem hu]
    simp
  rw [hi, h2]
  simp

/-- The pointer `getUpdater` returns is the one stored at the position of the
URL in the lists as they are after the call. -/
theorem getUpdater_fst (app : QApp) (p : Process) (url : QString) :
    (QSimpleUpdater.getUpdater app p url).1
      = (QSimpleUpdater.getUpdater app p url).2.UPDATERS.getD
          ((QSimpleUpdater.getUpdater app p url).2.URLS.indexOf url) 0 := by
  by_cases hu : url ∈ p.URLS
  · simp only [QSimpleUpdater.getUpdater, hu, not_true_eq_false, if_false]
  · simp only [QSimpleUpdater.getUpdater, hu, not_false_eq_true, if_true]

/-- C10: in every reachable registry state the URL list has no duplicates and
is as long as the session list; for every URL `u` a second `getUpdater(u)`
returns the pointer the first one returned and changes nothing (it creates no
session); the pointer returned refers to an allocated session; and a session
created for `u` has `url() = u`. -/
theorem registry_one_session_per_url (app : QApp) (fromJson : QByteArray → QJsonDocument)
    (p : Process) (h : Reachable app fromJson p) (u : QString) :
    p.URLS.Nodup ∧
    p.URLS.length = p.UPDATERS.length ∧
    (QSimpleUpdater.getUpdater app (QSimpleUpdater.getUpdater app p u).2 u).1
        = (QSimpleUpdater.getUpdater app p u).1 ∧
    (QSimpleUpdater.getUpdater app (QSimpleUpdater.getUpdater app p u).2 u).2
        = (QSimpleUpdater.getUpdater app p u).2 ∧
    ((QSimpleUpdater.getUpdater app p u).2.deref
        (QSimpleUpdater.getUpdater app p u).1).isSome = true ∧
    (u ∉ p.URLS →
      ((QSimpleUpdater.getUpdater app p u).2.deref
        (QSimpleUpdater.getUpdater app p u).1).map Updater.url = some u) := by
  have hw := reachable_wf app fromJson p h
  have hm := getUpdater_mem app p u
  have h2 := getUpdater_of_mem app _ u hm
  refine ⟨hw.1, hw.2.1, ?_, ?_, ?_, ?_⟩
  · rw [h2]
    exact (getUpdater_fst app p u).symm
  · rw [h2]
  · have hv := getUpdater_valid app p u hw
    simp only [Process.deref]
    rw [List.get?_eq_get hv]
    rfl
  · intro hu
    rw [getUpdater_new app p u hw hu]
    rfl

/-- C10 on the sample registry state, which is reachable: its lists fit, and
for `https://example.org/new.json`, which is not registered, the first
`getUpdater` creates a session with that URL and the second returns the same
pointer. -/
theorem registry_one_session_per_url_witness :
    Reachable sampleApp sampleFromJson sampleProcess ∧
    sampleProcess.URLS.Nodup ∧
    sampleProcess.URLS.length = sampleProcess.UPDATERS.length ∧
    (QSimpleUpdater.getUpdater sampleApp
        (QSimpleUpdater.getUpdater sampleApp sampleProcess "https://example.org/new.json").2
        "https://example.org/new.json").1
      = (QSimpleUpdater.getUpdater sampleApp sampleProcess "https://example.org/new.json").1 ∧
    ((QSimpleUpdater.getUpdater sampleApp sampleProcess "https://example.org/new.json").2.deref
        (QSimpleUpdater.getUpdater sampleApp sampleProcess
          "https://example.org/new.json").1).map Updater.url
      = some "https://example.org/new.json" :=
  have hr : Reachable sampleApp sampleFromJson sampleProcess :=
    Reachable.step _ (Reachable.step _ (Reachable.step _ (Reachable.init sampleFs)))
  have h := registry_one_session_per_url sampleApp sampleFromJson sampleProcess hr
    "https://example.org/new.json"
  ⟨hr, h.1, h.2.1, h.2.2.1, h.2.2.2.2.2 (by decide)⟩

/-! ## Theorems: the decisions of the user -/

/-- C13: when the update prompt is shown and answered with Yes, then with a
non-empty `openUrl` that URL is opened and the downloader is left alone;
otherwise, with the downloader enabled, one download of `downloadUrl` is
requested, with the session's mandatory flag, the session's URL and the file
name from the last segment of `downloadUrl` (`QSU_Update.bin` when that is
empty), and nothing is opened; otherwise `downloadUrl` is opened and the
downloader is left alone. -/
theorem setUpdateAvailable_proceed (u : Updater) (fs : FileSystem) (now : Int)
    (hn : (u.notifyOnUpdate || u.notifyOnFinish) = true) :
    (u.openUrl ≠ "" →
      (u.setUpdateAvailable fs true true now).effects
          = [Effect.updatePrompt u.latestVersion u.moduleName u.changelog u.mandatoryUpdate,
             Effect.openUrl u.openUrl] ∧
      (u.setUpdateAvailable fs true true now).updater.m_downloader = u.m_downloader ∧
      (u.setUpdateAvailable fs true true now).fs = fs) ∧
    (u.openUrl = "" → u.downloaderEnabled = true →
      (u.setUpdateAvailable fs true true now).effects
          = [Effect.updatePrompt u.latestVersion u.moduleName u.changelog u.mandatoryUpdate,
             Effect.get Manager.downloader
               (mkRequest u.downloadUrl u.m_downloader.m_userAgentString)] ∧
      (u.setUpdateAvailable fs true true now).updater.m_downloader.m_mandatoryUpdate
          = u.mandatoryUpdate ∧
      (u.setUpdateAvailable fs true true now).updater.m_downloader.m_url = u.url ∧
      (u.setUpdateAvailable fs true true now).updater.m_downloader.m_fileName
          = (if (split u.downloadUrl '/').getLast?.getD "" = "" then "QSU_Update.bin"
             else (split u.downloadUrl '/').getLast?.getD "") ∧
      (u.setUpdateAvailable fs true true now).updater.m_downloader.m_reply
          = some (QNetworkReply.fresh
              (mkRequest u.downloadUrl u.m_downloader.m_userAgentString))) ∧
    (u.openUrl = "" → u.downloaderEnabled = false →
      (u.setUpdateAvailable fs true true now).effects
          = [Effect.updatePrompt u.latestVersion u.moduleName u.changelog u.mandatoryUpdate,
             Effect.openUrl u.downloadUrl] ∧
      (u.setUpdateAvailable fs true true now).updater.m_downloader = u.m_downloader ∧
      (u.setUpdateAvailable fs true true now).fs = fs) := by
  have hn1 : (u.m_notifyOnUpdate || u.m_notifyOnFinish) = true := hn
  refine ⟨?_, ?_, ?_⟩
  · intro ho
    have ho1 : u.m_openUrl ≠ "" := ho
    simp [Updater.setUpdateAvailable, Updater.updateAvailable, Updater.notifyOnUpdate,
      Updater.notifyOnFinish, Updater.openUrl, Updater.latestVersion, Updater.moduleName,
      Updater.changelog, Updater.mandatoryUpdate, hn1, ho1]
  · intro ho hd
    have ho1 : u.m_openUrl = "" := ho
    have hd1 : u.m_downloaderEnabled = true := hd
    simp only [Updater.setUpdateAvailable, Updater.updateAvailable, Updater.notifyOnUpdate,
      Updater.notifyOnFinish, Updater.openUrl, Updater.latestVersion, Updater.moduleName,
      Updater.changelog, Updater.mandatoryUpdate, Updater.downloaderEnabled, Updater.url,
      Updater.downloadUrl, hn1, ho1, hd1, Bool.true_and, if_true, ne_eq, not_true_eq_false,
      if_false, Downloader.startDownload, Downloader.setMandatoryUpdate, Downloader.setUrlId]
    refine ⟨?_, ?_, ?_, ?_, ?_⟩ <;>
      first
        | rfl
        | (simp only [Downloader.setFileName] <;> split_ifs <;> rfl)
  · intro ho hd
    have ho1 : u.m_openUrl = "" := ho
    have hd1 : u.m_downloaderEnabled = false := hd
    simp [Updater.setUpdateAvailable, Updater.updateAvailable, Updater.notifyOnUpdate,
      Updater.notifyOnFinish, Updater.openUrl, Updater.latestVersion, Updater.moduleName,
      Updater.changelog, Updater.mandatoryUpdate, Updater.downloaderEnabled,
      Updater.downloadUrl, hn1, ho1, hd1]

/-- C13 on the sample session that holds the record of version `2.0` (no
`openUrl`, downloader enabled): Yes requests the download of
`https://example.org/files/app-2.0.bin` under the file name `app-2.0.bin`. -/
theorem setUpdateAvailable_proceed_witness :
    (sampleUpdaterFound.setUpdateAvailable sampleFs true true 0).effects
      = [Effect.updatePrompt "2.0" "app" "fixes" false,
         Effect.get Manager.downloader
           { url := "https://example.org/files/app-2.0.bin",
             userAgent := some "app/1.0 (Qt; QSimpleUpdater)" }] ∧
    (sampleUpdaterFound.setUpdateAvailable sampleFs true true 0).updater.m_downloader.m_fileName
      = "app-2.0.bin" :=
  have h := (setUpdateAvailable_proceed sampleUpdaterFound sampleFs 0 (by decide)).2.1
    (by decide) (by decide)
  ⟨h.1.trans (by decide), h.2.2.2.1.trans (by decide)⟩

/-- The slot `finished` on a reply that carries an error: the partial file is
removed, nothing else happens. -/
theorem finished_of_error (d : Downloader) (fs : FileSystem) (answerOk : Bool)
    (reply : QNetworkReply) (hr : d.m_reply = some reply) (he : reply.error ≠ 0) :
    d.finished fs answerOk
      = { downloader := d, fs := fs.remove d.partialPath, effects := [] } := by
  simp [Downloader.finished, hr, he]

/-- C14: for a mandatory update each declined decision calls
`QApplication::quit()` exactly once: the update prompt answered with No, the
install prompt answered with Cancel, and the cancel prompt of a running
download answered with Yes. For an update that is not mandatory, No at the
update prompt shows the prompt and does nothing else. -/
theorem mandatory_decline_quits_once (u : Updater) (d : Downloader) (fs : FileSystem)
    (now : Int) (reply : QNetworkReply) :
    (u.mandatoryUpdate = true → (u.notifyOnUpdate || u.notifyOnFinish) = true →
      (u.setUpdateAvailable fs true false now).effects.count Effect.quit = 1) ∧
    (d.m_mandatoryUpdate = true → d.useCustomInstallProcedures = false →
      (d.installUpdate fs false).effects.count Effect.quit = 1) ∧
    (d.m_mandatoryUpdate = true → d.m_reply = some reply → reply.isFinished = false →
      (d.cancelDownload fs true).effects.count Effect.quit = 1) ∧
    (u.mandatoryUpdate = false → (u.notifyOnUpdate || u.notifyOnFinish) = true →
      u.setUpdateAvailable fs true false now
        = { updater := { u with m_updateAvailable := true }, fs := fs,
            effects := [Effect.updatePrompt u.latestVersion u.moduleName u.changelog false] }) := by
  refine ⟨?_, ?_, ?_, ?_⟩
  · intro hm hn
    have hm1 : u.m_mandatoryUpdate = true := hm
    have hn1 : (u.m_notifyOnUpdate || u.m_notifyOnFinish) = true := hn
    simp only [Updater.setUpdateAvailable, Updater.updateAvailable, Updater.notifyOnUpdate,
      Updater.notifyOnFinish, hn1, hm1, Bool.true_and, if_true, Bool.false_eq_true, if_false]
    simp [List.count_cons]
  · intro hm hc
    have hc1 : d.m_useCustomProcedures = false := hc
    simp only [Downloader.installUpdate, Downloader.useCustomInstallProcedures, hc1, hm,
      Bool.false_eq_true, if_false, if_true]
    simp [List.count_cons]
  · intro hm hr hf
    simp only [Downloader.cancelDownload, hr, hf, Bool.false_eq_true, not_false_eq_true,
      if_true]
    rw [finished_of_error _ fs false _ rfl (by simp [Downloader.OperationCanceledError])]
    simp [hm, List.count_cons]
  · intro hm hn
    have hm1 : u.m_mandatoryUpdate = false := hm
    have hn1 : (u.m_notifyOnUpdate || u.m_notifyOnFinish) = true := hn
    simp [Updater.setUpdateAvailable, Updater.updateAvailable, Updater.notifyOnUpdate,
      Updater.notifyOnFinish, Updater.latestVersion, Updater.moduleName, Updater.changelog,
      hn1, hm1]

/-- C14 on the samples: the sample session made mandatory quits once on No;
the running sample download made mandatory quits once on a confirmed cancel. -/
theorem mandatory_decline_quits_once_witness :
    ((sampleUpdaterFound.setMandatoryUpdate true).setUpdateAvailable sampleFs true false
        0).effects.count Effect.quit = 1 ∧
    ((sampleDownload.downloader.setMandatoryUpdate true).cancelDownload sampleDownload.fs
        true).effects.count Effect.quit = 1 :=
  ⟨(mandatory_decline_quits_once (sampleUpdaterFound.setMandatoryUpdate true)
      (sampleDownload.downloader.setMandatoryUpdate true) sampleFs 0
      (QNetworkReply.fresh (mkRequest "" ""))).1 (by decide) (by decide),
   (mandatory_decline_quits_once sampleUpdaterFound
      (sampleDownload.downloader.setMandatoryUpdate true) sampleDownload.fs 0
      (QNetworkReply.fresh (mkRequest "https://example.org/files/app-2.0.bin"
        "app/1.0 (Qt; QSimpleUpdater)"))).2.2.1 (by decide) (by decide) (by decide)⟩

/-! ## Theorems: the end of a download -/

/-- No `downloadFinished` is emitted by `installUpdate`, and it leaves the files alone. -/
theorem installUpdate_frame (d : Downloader) (fs : FileSystem) (answerOk : Bool) :
    (d.installUpdate fs answerOk).fs = fs ∧
    (d.installUpdate fs answerOk).effects.filter Effect.isDownloadFinished = [] := by
  simp only [Downloader.installUpdate, Downloader.openDownload]
  split_ifs <;> simp [Effect.isDownloadFinished]

/-- A file name set with `setFileName` is never empty. -/
theorem setFileName_ne_empty (d : Downloader) (file : QString) :
    (d.setFileName file).m_fileName ≠ "" := by
  unfold Downloader.setFileName
  split_ifs with h
  · show "QSU_Update.bin" ≠ ""
    decide
  · exact h

/-- C19: with custom install procedures off, Ok at the install prompt calls
`QApplication::quit()` exactly once, mandatory or not, and, for a downloader
whose file name has been set, asks the OS to open the downloaded file before;
Cancel quits once when the update is mandatory and otherwise does nothing more
than showing the prompt; the files are left as they are. With custom install
procedures on, `installUpdate` does nothing at all. -/
theorem installUpdate_outcome (d : Downloader) (fs : FileSystem) :
    (d.useCustomInstallProcedures = false →
      (d.installUpdate fs true).effects.count Effect.quit = 1 ∧
      (d.m_fileName ≠ "" →
        (d.installUpdate fs true).effects
          = [Effect.installPrompt d.m_mandatoryUpdate,
             Effect.openUrl (fromLocalFile d.finalPath), Effect.quit]) ∧
      (d.m_mandatoryUpdate = true →
        (d.installUpdate fs false).effects
          = [Effect.installPrompt d.m_mandatoryUpdate, Effect.quit]) ∧
      (d.m_mandatoryUpdate = false →
        (d.installUpdate fs false).effects = [Effect.installPrompt d.m_mandatoryUpdate]) ∧
      (d.installUpdate fs true).fs = fs ∧
      (d.installUpdate fs false).fs = fs) ∧
    (d.useCustomInstallProcedures = true →
      ∀ answerOk, d.installUpdate fs answerOk = { downloader := d, fs := fs, effects := [] }) := by
  constructor
  · intro hc
    have hc1 : d.m_useCustomProcedures = false := hc
    refine ⟨?_, ?_, ?_, ?_, (installUpdate_frame d fs true).1, (installUpdate_frame d fs false).1⟩
    · simp only [Downloader.installUpdate, Downloader.openDownload,
        Downloader.useCustomInstallProcedures, hc1, Bool.false_eq_true,
        if_false, if_true, not_false_eq_true]
      split_ifs <;> simp [List.count_cons]
    · intro hn
      simp [Downloader.installUpdate, Downloader.openDownload,
        Downloader.useCustomInstallProcedures, Downloader.finalPath, hc1, hn]
    · intro hm
      simp [Downloader.installUpdate, Downloader.useCustomInstallProcedures, hc1, hm]
    · intro hm
      simp [Downloader.installUpdate, Downloader.useCustomInstallProcedures, hc1, hm]
  · intro hc answerOk
    simp [Downloader.installUpdate, hc]

/-- C19 on the sample download (not mandatory, custom install procedures off):
Ok opens `app-2.0.bin` and quits, Cancel only shows the prompt. -/
theorem installUpdate_outcome_witness :
    (sampleDownload.downloader.installUpdate sampleDownload.fs true).effects
      = [Effect.installPrompt false,
         Effect.openUrl "file:///home/user/Downloads/app-2.0.bin", Effect.quit] ∧
    (sampleDownload.downloader.installUpdate sampleDownload.fs false).effects
      = [Effect.installPrompt false] :=
  have h := (installUpdate_outcome sampleDownload.downloader sampleDownload.fs).1 (by decide)
  ⟨(h.2.1 (by decide)).trans (by decide), (h.2.2.2.1 (by decide)).trans (by decide)⟩

/-- A removed file does not exist. -/
theorem fileExists_remove_self (fs : FileSystem) (path : QString) :
    (fs.remove path).fileExists path = false := by
  simp [FileSystem.remove, FileSystem.fileExists]

/-- Removing a file brings no other file into existence. -/
theorem fileExists_remove_of_not (fs : FileSystem) (path other : QString)
    (h : fs.fileExists other = false) : (fs.remove path).fileExists other = false := by
  simp only [FileSystem.remove, FileSystem.fileExists, List.any_eq_false, List.mem_filter,
    and_imp] at h ⊢
  intro f hf _
  exact h f hf

/-- What `saveFile` does on a reply that carries a redirect target: it writes
nothing, sends one request to the target and waits on the new reply, under
the same file name; neither the partial file nor the final file exists
afterwards, so the restarted transfer begins with an empty partial file. -/
theorem saveFile_redirect (d : Downloader) (fs : FileSystem) (now : Int)
    (reply : QNetworkReply) (hr : d.m_reply = some reply)
    (ht : reply.redirectionTarget ≠ "") :
    (d.saveFile fs now).effects
        = [Effect.get Manager.downloader
            (mkRequest reply.redirectionTarget d.m_userAgentString)] ∧
    (d.saveFile fs now).downloader.m_reply
        = some (QNetworkReply.fresh (mkRequest reply.redirectionTarget d.m_userAgentString)) ∧
    (d.saveFile fs now).downloader.m_fileName = d.m_fileName ∧
    (d.saveFile fs now).downloader.m_downloadDir = d.m_downloadDir ∧
    (d.saveFile fs now).fs.fileExists d.partialPath = false ∧
    (d.saveFile fs now).fs.fileExists d.finalPath = false := by
  simp only [Downloader.saveFile, hr, ht, ne_eq, not_false_eq_true, if_true,
    Downloader.startDownload]
  refine ⟨trivial, trivial, trivial, trivial, ?_, ?_⟩
  · exact fileExists_remove_self _ _
  · exact fileExists_remove_of_not _ _ _ (fileExists_remove_self _ _)

/-- A confirmed cancel of a running download removes the partial file, touches
no other file and emits no `downloadFinished`. -/
theorem cancelDownload_confirmed (d : Downloader) (fs : FileSystem) (reply : QNetworkReply)
    (hr : d.m_reply = some reply) (hf : reply.isFinished = false) :
    (d.cancelDownload fs true).fs = fs.remove d.partialPath ∧
    (d.cancelDownload fs true).effects.filter Effect.isDownloadFinished = [] := by
  simp only [Downloader.cancelDownload, hr, hf, Bool.false_eq_true, not_false_eq_true, if_true]
  rw [finished_of_error _ fs false _ rfl (by simp [Downloader.OperationCanceledError])]
  constructor
  · rfl
  · cases d.m_mandatoryUpdate <;> simp [Effect.isDownloadFinished]

/-- When the partial file exists and nothing is in the way at the final path,
a transfer that ends without error leaves the bytes of the partial file under
the final name. -/
theorem finished_moves_partial (d : Downloader) (fs : FileSystem) (answerOk : Bool)
    (reply : QNetworkReply) (content : QByteArray) (hr : d.m_reply = some reply)
    (he : reply.error = 0) (hp : fs.read d.partialPath = some content)
    (hfile : fs.fileExists d.finalPath = false) (hdir : fs.dirExists d.finalPath = false) :
    (d.finished fs answerOk).fs.read d.finalPath = some content := by
  have h : (d.finished fs answerOk).fs = fs.rename d.partialPath d.finalPath := by
    simp only [Downloader.finished, hr, he, ne_eq, not_true_eq_false, if_false]
    exact (installUpdate_frame d (fs.rename d.partialPath d.finalPath) answerOk).1
  rw [h]
  simp only [FileSystem.read] at hp
  simp [FileSystem.rename, FileSystem.read, hp, hfile, hdir, List.lookup]

/-! ## Evaluations: where the code leaves the specification -/

/-- C15 at a failing input. The directory holds `QSU_Update.bin` from an
earlier download; the download of `app-2.0.bin` is started, the reply carries
a `Content-Disposition` header without file name, three bytes arrive, and the
transfer ends without error. The file name is now `QSU_Update.bin`, which
`startDownload` did not remove: the rename fails, the old file keeps its old
content, the partial file stays, and `downloadFinished` is emitted for a file
that does not hold the received bytes. -/
theorem download_over_stale_file :
    (Downloader.run sampleCapture sampleTexts sampleDownload
      [DownloadEvent.metaData (some sampleHeader),
       DownloadEvent.progress 3 3 [1, 2, 3] "" 0 0,
       DownloadEvent.finished 0 false]).map
      (fun r => (r.downloader.m_fileName,
                 r.fs.read "/home/user/Downloads/QSU_Update.bin",
                 r.fs.read "/home/user/Downloads/QSU_Update.bin.part",
                 r.effects.filter Effect.isDownloadFinished))
      = some ("QSU_Update.bin", some [9, 9], some [1, 2, 3],
              [Effect.downloadFinished "https://example.org/updates.json"
                "/home/user/Downloads/QSU_Update.bin"]) := by
  decide

/-- C17 at a failing input. Same start as for C15, then the download is
cancelled and the cancellation confirmed: no `downloadFinished` is emitted,
but the directory still holds a file named exactly as the current file name,
`QSU_Update.bin`. -/
theorem cancel_leaves_stale_file :
    (Downloader.run sampleCapture sampleTexts sampleDownload
      [DownloadEvent.metaData (some sampleHeader),
       DownloadEvent.progress 3 3 [1, 2, 3] "" 0 0,
       DownloadEvent.cancel true]).map
      (fun r => (r.downloader.m_fileName,
                 r.fs.fileExists r.downloader.finalPath,
                 r.fs.fileExists r.downloader.partialPath,
                 r.effects.filter Effect.isDownloadFinished))
      = some ("QSU_Update.bin", true, false, []) := by
  decide

/-- C18 at a failing input. A progress event with total 0 arrives while the
reply carries a redirect target: `saveFile` is not reached, no request goes to
the target and the downloader still waits on the reply for the old URL. With a
known total the same event restarts the download against the target. -/
theorem redirect_without_total_not_followed :
    (Downloader.run sampleCapture sampleTexts sampleDownload
      [DownloadEvent.progress 0 0 [] "https://example.org/files/v2.bin" 0 0]).map
      (fun r => (r.downloader.m_reply.map (fun reply => reply.request.url), r.effects))
      = some (some "https://example.org/files/app-2.0.bin", []) ∧
    (Downloader.run sampleCapture sampleTexts sampleDownload
      [DownloadEvent.progress 3 3 [1, 2, 3] "https://example.org/files/v2.bin" 0 0]).map
      (fun r => (r.downloader.m_reply.map (fun reply => reply.request.url), r.effects))
      = some (some "https://example.org/files/v2.bin",
              [Effect.get Manager.downloader
                { url := "https://example.org/files/v2.bin",
                  userAgent := some "app/1.0 (Qt; QSimpleUpdater)" }]) := by
  decide

/-- C20 at a failing input. The sample download receives three bytes and then
fails with error 3: the partial file is removed, no file `app-2.0.bin` exists
and no `downloadFinished` was emitted, yet `openDownload` shows no error and
asks the OS to open `app-2.0.bin`. -/
theorem openDownload_after_failed_download :
    (Downloader.run sampleCapture sampleTexts sampleDownload
      [DownloadEvent.progress 3 3 [1, 2, 3] "" 0 0,
       DownloadEvent.finished 3 false]).map
      (fun r => (r.fs.fileExists r.downloader.finalPath,
                 r.fs.fileExists r.downloader.partialPath,
                 r.effects.filter Effect.isDownloadFinished,
                 r.downloader.openDownload))
      = some (false, false, [],
              [Effect.openUrl "file:///home/user/Downloads/app-2.0.bin"]) := by
  decide

/-- C12 at a failing input. The session registered for
`https://example.org/updates.json` (pointer 0) was redirected to
`https://example.org/v2.json`; the next manifest reply makes it emit
`checkingFinished` tagged with the redirect target. Looking that tag up in the
registry creates another session (pointer 1), whose changelog is empty, while
the session that emitted the signal holds the changelog `fixes`. -/
theorem redirect_changes_tag :
    (QSimpleUpdater.getUpdater sampleApp sampleProcess
      "https://example.org/updates.json").1 = 0 ∧
    (sampleProcess.step sampleApp sampleFromJson
      (Action.reply 0 (sampleReply "" 0 [1]) false 0)).2
      = [Effect.updatePrompt "2.0" "tool" "fixes" false,
         Effect.checkingFinished "https://example.org/v2.json"] ∧
    (QSimpleUpdater.getUpdater sampleApp
      (sampleProcess.step sampleApp sampleFromJson
        (Action.reply 0 (sampleReply "" 0 [1]) false 0)).1
      "https://example.org/v2.json").1 = 1 ∧
    (QSimpleUpdater.getChangelog sampleApp
      (sampleProcess.step sampleApp sampleFromJson
        (Action.reply 0 (sampleReply "" 0 [1]) false 0)).1
      "https://example.org/v2.json").1 = some "" ∧
    ((sampleProcess.step sampleApp sampleFromJson
        (Action.reply 0 (sampleReply "" 0 [1]) false 0)).1.deref 0).map Updater.changelog
      = some "fixes" := by
  decide

/-! ## Theorems: setters and getters of the registry -/

/-- Looking a URL up keeps the pointers of the registry distinct. -/
theorem getUpdater_nodup (app : QApp) (p : Process) (url : QString) (h : p.WF)
    (hn : p.UPDATERS.Nodup) : (QSimpleUpdater.getUpdater app p url).2.UPDATERS.Nodup := by
  by_cases hu : url ∈ p.URLS
  · simp only [QSimpleUpdater.getUpdater, hu, not_true_eq_false, if_false]
    exact hn
  · simp only [QSimpleUpdater.getUpdater, hu, not_false_eq_true, if_true]
    rw [List.nodup_append]
    refine ⟨hn, List.nodup_singleton _, ?_⟩
    intro x hx hx2
    rw [List.mem_singleton] at hx2
    have := h.2.2 x hx
    omega

/-- Calling a setter on an object leaves the pointer list alone. -/
theorem update_updaters (p : Process) (ptr : Nat) (f : Updater → Updater) :
    (p.update ptr f).UPDATERS = p.UPDATERS ∧ (p.update ptr f).URLS = p.URLS := by
  unfold Process.update
  cases p.heap.get? ptr <;> exact ⟨rfl, rfl⟩

/-- Every action keeps the pointers of the registry distinct. -/
theorem step_nodup (app : QApp) (fromJson : QByteArray → QJsonDocument) (p : Process)
    (a : Action) (h : p.WF) (hn : p.UPDATERS.Nodup) :
    (p.step app fromJson a).1.UPDATERS.Nodup := by
  have key : ∀ url (f : Updater → Updater),
      (QSimpleUpdater.apply app p url f).UPDATERS.Nodup := by
    intro url f
    simp only [QSimpleUpdater.apply]
    rw [(update_updaters _ _ f).1]
    exact getUpdater_nodup app p url h hn
  cases a with
  | get url => exact getUpdater_nodup app p url h hn
  | checkForUpdates url =>
    simp only [Process.step, QSimpleUpdater.checkForUpdates]
    split <;> exact getUpdater_nodup app p url h hn
  | setDownloadDir url dir => exact key url _
  | setModuleName url name => exact key url _
  | setNotifyOnUpdate url b => exact key url _
  | setNotifyOnFinish url b => exact key url _
  | setPlatformKey url k => exact key url _
  | setModuleVersion url v => exact key url _
  | setDownloaderEnabled url b => exact key url _
  | setUserAgentString url ag => exact key url _
  | setUseCustomAppcast url b => exact key url _
  | setUseCustomInstallProcedures url b => exact key url _
  | setMandatoryUpdate url b => exact key url _
  | reply updater reply answerYes now =>
    simp only [Process.step]
    cases hd : p.deref updater with
    | none => exact hn
    | some u => exact hn
  | downloader updater d fs =>
    simp only [Process.step]
    rw [(update_updaters _ _ _).1]
    exact hn
  | destroy =>
    simp [Process.step, QSimpleUpdater.destroy]

/-- In every reachable registry state the pointers are distinct. -/
theorem reachable_nodup (app : QApp) (fromJson : QByteArray → QJsonDocument) (p : Process)
    (h : Reachable app fromJson p) : p.UPDATERS.Nodup := by
  induction h with
  | init fs => simp [Process.init]
  | step a hp ih => exact step_nodup app fromJson _ a (reachable_wf app fromJson _ hp) ih

/-- In a well-formed registry a getter returns the value of the registered
session, or of a fresh session when the URL is new. -/
theorem read_eq (app : QApp) (p : Process) (url : QString) (h : p.WF) {β : Type}
    (f : Updater → β) :
    (QSimpleUpdater.read app p url f).1
      = some (f ((p.session url).getD ((Updater.new app).setUrl url))) := by
  by_cases hu : url ∈ p.URLS
  · have hv := getUpdater_valid app p url h
    rw [getUpdater_of_mem app p url hu] at hv
    simp only [QSimpleUpdater.read, getUpdater_of_mem app p url hu, Process.deref,
      Process.session, hu, if_true]
    simp only at hv
    rw [List.get?_eq_get hv]
    rfl
  · simp only [QSimpleUpdater.read, getUpdater_new app p url h hu, Process.session, hu,
      if_false]
    rfl

/-- Looking up `a` does not change the session registered for another URL. -/
theorem session_getUpdater_other (app : QApp) (p : Process) (a b : QString) (h : p.WF)
    (hab : a ≠ b) : (QSimpleUpdater.getUpdater app p a).2.session b = p.session b := by
  by_cases ha : a ∈ p.URLS
  · rw [getUpdater_of_mem app p a ha]
  · obtain ⟨_, h2, h3⟩ := h
    simp only [QSimpleUpdater.getUpdater, ha, not_false_eq_true, if_true, Process.session]
    by_cases hb : b ∈ p.URLS
    · have hb2 : b ∈ p.URLS ++ [a] := List.mem_append_left _ hb
      have hidx : p.URLS.indexOf b < p.UPDATERS.length := by
        rw [← h2]; exact List.indexOf_lt_length.mpr hb
      rw [if_pos hb2, if_pos hb, List.indexOf_append_of_mem hb,
        List.getD_eq_getElem _ _ (by rw [List.length_append]; omega),
        List.getD_eq_getElem _ _ hidx, List.getElem_append_left hidx]
      have hptr := h3 _ (List.getElem_mem hidx)
      rw [List.get?_eq_getElem?, List.get?_eq_getElem?, List.getElem?_append_left hptr]
    · have hb2 : b ∉ p.URLS ++ [a] := by
        simp only [List.mem_append, List.mem_singleton, not_or]
        exact ⟨hb, fun e => hab e.symm⟩
      rw [if_neg hb2, if_neg hb]

/-- Calling a setter on the session of `a` applies it to that session. -/
theorem session_update_self (p : Process) (a : QString) (g : Updater → Updater) (h : p.WF)
    (ha : a ∈ p.URLS) :
    (p.update (p.UPDATERS.getD (p.URLS.indexOf a) 0) g).session a = (p.session a).map g := by
  obtain ⟨_, h2, h3⟩ := h
  have hidx : p.URLS.indexOf a < p.UPDATERS.length := by
    rw [← h2]; exact List.indexOf_lt_length.mpr ha
  have hptr := h3 _ (List.getElem_mem hidx)
  rw [← List.getD_eq_getElem _ 0 hidx] at hptr
  simp only [Process.update, Process.session, ha, if_true]
  rw [List.get?_eq_get hptr]
  simp only [ha, if_true, List.get?_eq_getElem?, List.getElem?_set_self hptr, Option.map_some]
  rfl

/-- Calling a setter on the session of `a` leaves the session of another URL alone. -/
theorem session_update_other (p : Process) (a b : QString) (g : Updater → Updater)
    (h : p.WF) (hn : p.UPDATERS.Nodup) (ha : a ∈ p.URLS) (hab : a ≠ b) :
    (p.update (p.UPDATERS.getD (p.URLS.indexOf a) 0) g).session b = p.session b := by
  obtain ⟨_, h2, h3⟩ := h
  have hidx : p.URLS.indexOf a < p.UPDATERS.length := by
    rw [← h2]; exact List.indexOf_lt_length.mpr ha
  have hptr := h3 _ (List.getElem_mem hidx)
  rw [← List.getD_eq_getElem _ 0 hidx] at hptr
  simp only [Process.update, Process.session]
  rw [List.get?_eq_get hptr]
  by_cases hb : b ∈ p.URLS
  · have hidxb : p.URLS.indexOf b < p.UPDATERS.length := by
      rw [← h2]; exact List.indexOf_lt_length.mpr hb
    have hne : p.UPDATERS.getD (p.URLS.indexOf a) 0 ≠ p.UPDATERS.getD (p.URLS.indexOf b) 0 := by
      rw [List.getD_eq_getElem _ _ hidx, List.getD_eq_getElem _ _ hidxb]
      intro e
      have := (List.Nodup.getElem_inj_iff hn).mp e
      exact hab ((List.indexOf_inj ha hb).mp this)
    simp only [hb, if_true, List.get?_eq_getElem?, List.getElem?_set_ne hne]
  · simp only [hb, if_false]

/-- A per-URL setter for `a` followed by a getter for `a`: the getter reads
the session the setter was applied to. -/
theorem apply_read_self (app : QApp) (p : Process) (a : QString) (g : Updater → Updater)
    (h : p.WF) {β : Type} (f : Updater → β) :
    ∃ u, (QSimpleUpdater.read app (QSimpleUpdater.apply app p a g) a f).1 = some (f (g u)) := by
  have hw1 := getUpdater_wf app p a h
  have hm := getUpdater_mem app p a
  have hv := getUpdater_valid app p a h
  rw [read_eq app _ a (apply_wf app p a g h) f]
  simp only [QSimpleUpdater.apply]
  rw [getUpdater_fst app p a, session_update_self _ a g hw1 hm]
  rw [getUpdater_fst app p a] at hv
  simp only [Process.session, hm, if_true, List.get?_eq_get hv]
  exact ⟨_, rfl⟩

/-- A per-URL setter for `a` changes no reading for another URL. -/
theorem apply_sameReadings (app : QApp) (p : Process) (a b : QString)
    (g : Updater → Updater) (h : p.WF) (hn : p.UPDATERS.Nodup) (hab : a ≠ b) :
    QSimpleUpdater.SameReadings app p (QSimpleUpdater.apply app p a g) b := by
  intro β f
  have hw1 := getUpdater_wf app p a h
  have hn1 := getUpdater_nodup app p a h hn
  have hm := getUpdater_mem app p a
  rw [read_eq app _ b (apply_wf app p a g h) f, read_eq app p b h f]
  simp only [QSimpleUpdater.apply]
  rw [getUpdater_fst app p a, session_update_other _ a b g hw1 hn1 hm hab,
    session_getUpdater_other app p a b h hab]

/-- C11: in every reachable registry state, for distinct URLs `a` and `b`,
each per-URL setter applied for `a` makes the matching getter for `a` return
the value set and changes no value that any getter returns for `b`. Covered:
module name, module version, the two notify flags, platform key, user agent,
mandatory flag, custom-appcast flag, downloader-enabled flag and
custom-install flag. -/
theorem setter_getter_independent (app : QApp) (fromJson : QByteArray → QJsonDocument)
    (p : Process) (h : Reachable app fromJson p) (a b : QString) (hab : a ≠ b)
    (text : QString) (flag : Bool) :
    ((QSimpleUpdater.getModuleName app (QSimpleUpdater.setModuleName app p a text) a).1
        = some text ∧
      QSimpleUpdater.SameReadings app p (QSimpleUpdater.setModuleName app p a text) b) ∧
    ((QSimpleUpdater.getModuleVersion app (QSimpleUpdater.setModuleVersion app p a text) a).1
        = some text ∧
      QSimpleUpdater.SameReadings app p (QSimpleUpdater.setModuleVersion app p a text) b) ∧
    ((QSimpleUpdater.getNotifyOnUpdate app (QSimpleUpdater.setNotifyOnUpdate app p a flag) a).1
        = some flag ∧
      QSimpleUpdater.SameReadings app p (QSimpleUpdater.setNotifyOnUpdate app p a flag) b) ∧
    ((QSimpleUpdater.getNotifyOnFinish app (QSimpleUpdater.setNotifyOnFinish app p a flag) a).1
        = some flag ∧
      QSimpleUpdater.SameReadings app p (QSimpleUpdater.setNotifyOnFinish app p a flag) b) ∧
    ((QSimpleUpdater.getPlatformKey app (QSimpleUpdater.setPlatformKey app p a text) a).1
        = some text ∧
      QSimpleUpdater.SameReadings app p (QSimpleUpdater.setPlatformKey app p a text) b) ∧
    ((QSimpleUpdater.getUserAgentString app
          (QSimpleUpdater.setUserAgentString app p a text) a).1 = some text ∧
      QSimpleUpdater.SameReadings app p (QSimpleUpdater.setUserAgentString app p a text) b) ∧
    ((QSimpleUpdater.getMandatoryUpdate app
          (QSimpleUpdater.setMandatoryUpdate app p a flag) a).1 = some flag ∧
      QSimpleUpdater.SameReadings app p (QSimpleUpdater.setMandatoryUpdate app p a flag) b) ∧
    ((QSimpleUpdater.usesCustomAppcast app
          (QSimpleUpdater.setUseCustomAppcast app p a flag) a).1 = some flag ∧
      QSimpleUpdater.SameReadings app p (QSimpleUpdater.setUseCustomAppcast app p a flag) b) ∧
    ((QSimpleUpdater.getDownloaderEnabled app
          (QSimpleUpdater.setDownloaderEnabled app p a flag) a).1 = some flag ∧
      QSimpleUpdater.SameReadings app p (QSimpleUpdater.setDownloaderEnabled app p a flag) b) ∧
    ((QSimpleUpdater.usesCustomInstallProcedures app
          (QSimpleUpdater.setUseCustomInstallProcedures app p a flag) a).1 = some flag ∧
      QSimpleUpdater.SameReadings app p
        (QSimpleUpdater.setUseCustomInstallProcedures app p a flag) b) := by
  have hw := reachable_wf app fromJson p h
  have hn := reachable_nodup app fromJson p h
  have same : ∀ g : Updater → Updater,
      QSimpleUpdater.SameReadings app p (QSimpleUpdater.apply app p a g) b :=
    fun g => apply_sameReadings app p a b g hw hn hab
  refine ⟨⟨?_, same _⟩, ⟨?_, same _⟩, ⟨?_, same _⟩, ⟨?_, same _⟩, ⟨?_, same _⟩, ⟨?_, same _⟩,
    ⟨?_, same _⟩, ⟨?_, same _⟩, ⟨?_, same _⟩, ⟨?_, same _⟩⟩
  · obtain ⟨u, hu⟩ := apply_read_self app p a (fun u => u.setModuleName text) hw
      Updater.moduleName
    exact hu
  · obtain ⟨u, hu⟩ := apply_read_self app p a (fun u => u.setModuleVersion text) hw
      Updater.moduleVersion
    exact hu
  · obtain ⟨u, hu⟩ := apply_read_self app p a (fun u => u.setNotifyOnUpdate flag) hw
      Updater.notifyOnUpdate
    exact hu
  · obtain ⟨u, hu⟩ := apply_read_self app p a (fun u => u.setNotifyOnFinish flag) hw
      Updater.notifyOnFinish
    exact hu
  · obtain ⟨u, hu⟩ := apply_read_self app p a (fun u => u.setPlatformKey text) hw
      Updater.platformKey
    exact hu
  · obtain ⟨u, hu⟩ := apply_read_self app p a (fun u => u.setUserAgentString text) hw
      Updater.userAgentString
    exact hu
  · obtain ⟨u, hu⟩ := apply_read_self app p a (fun u => u.setMandatoryUpdate flag) hw
      Updater.mandatoryUpdate
    exact hu
  · obtain ⟨u, hu⟩ := apply_read_self app p a (fun u => u.setUseCustomAppcast flag) hw
      Updater.customAppcast
    exact hu
  · obtain ⟨u, hu⟩ := apply_read_self app p a (fun u => u.setDownloaderEnabled flag) hw
      Updater.downloaderEnabled
    exact hu
  · obtain ⟨u, hu⟩ := apply_read_self app p a
      (fun u => u.setUseCustomInstallProcedures flag) hw Updater.useCustomInstallProcedures
    exact hu

/-- C11 on the sample registry state: setting the module version of
`https://example.org/updates.json` to `3.1` is read back for that URL, and
the module version read for `https://example.org/new.json` stays the
application version `1.0`. -/
theorem setter_getter_independent_witness :
    (QSimpleUpdater.getModuleVersion sampleApp
      (QSimpleUpdater.setModuleVersion sampleApp sampleProcess
        "https://example.org/updates.json" "3.1")
      "https://example.org/updates.json").1 = some "3.1" ∧
    (QSimpleUpdater.getModuleVersion sampleApp
      (QSimpleUpdater.setModuleVersion sampleApp sampleProcess
        "https://example.org/updates.json" "3.1")
      "https://example.org/new.json").1 = some "1.0" :=
  have h := (setter_getter_independent sampleApp sampleFromJson sampleProcess
    (Reachable.step _ (Reachable.step _ (Reachable.step _ (Reachable.init sampleFs))))
    "https://example.org/updates.json" "https://example.org/new.json" (by decide)
    "3.1" true).2.1
  ⟨h.1, (h.2 QString Updater.moduleVersion).trans (by decide)⟩

/-! ## Theorems: `compare` as an order -/

/-- Unfolding of `compareSegments` around the loop. -/
theorem compareSegments_eq (X Y : List QString) :
    compareSegments X Y =
      match compareLoop X Y (min X.length Y.length) 0 with
      | some r => r
      | none => decide (Y.length < X.length) := rfl

/-- The loop on two lists with a first segment each, one index further, is the
loop on the two rests. -/
theorem compareLoop_cons_shift (x y : QString) (X Y : List QString) (n i : Nat) :
    compareLoop (x :: X) (y :: Y) n (i + 1) = compareLoop X Y n i := by
  induction n generalizing i with
  | zero => rfl
  | succ n ih =>
    rw [compareLoop_succ, compareLoop_succ, ih (i + 1)]
    rfl

/-- Without segments on the left the result is false. -/
theorem compareSegments_nil_left (Y : List QString) : compareSegments [] Y = false := by
  rw [compareSegments_eq]
  simp [compareLoop]

/-- Against no segments, a list with a segment wins. -/
theorem compareSegments_cons_nil (x : QString) (X : List QString) :
    compareSegments (x :: X) [] = true := by
  rw [compareSegments_eq]
  simp [compareLoop]

/-- The first segments decide, and when their values are equal the rests do. -/
theorem compareSegments_cons_cons (x y : QString) (X Y : List QString) :
    compareSegments (x :: X) (y :: Y) =
      if toInt x > toInt y then true
      else if toInt y > toInt x then false
      else compareSegments X Y := by
  rw [compareSegments_eq, compareSegments_eq]
  have hmin : min (x :: X).length (y :: Y).length = min X.length Y.length + 1 := by
    simp only [List.length_cons]
    omega
  rw [hmin, compareLoop_succ, compareLoop_cons_shift]
  simp only [List.getD_cons_zero, List.length_cons, Nat.add_lt_add_iff_right]
  split_ifs <;> rfl

/-- On segment lists the comparison is transitive. -/
theorem compareSegments_trans (X Y Z : List QString) (h1 : compareSegments X Y = true)
    (h2 : compareSegments Y Z = true) : compareSegments X Z = true := by
  induction X generalizing Y Z with
  | nil => rw [compareSegments_nil_left] at h1; exact absurd h1 (by decide)
  | cons x X ih =>
    cases Y with
    | nil => rw [compareSegments_nil_left] at h2; exact absurd h2 (by decide)
    | cons y Y =>
      cases Z with
      | nil => exact compareSegments_cons_nil x X
      | cons z Z =>
        rw [compareSegments_cons_cons] at h1 h2 ⊢
        by_cases hxy : toInt x > toInt y
        · by_cases hyz : toInt y > toInt z
          · rw [if_pos (by omega)]
          · rw [if_neg hyz] at h2
            by_cases hzy : toInt z > toInt y
            · rw [if_pos hzy] at h2; exact absurd h2 (by decide)
            · rw [if_pos (by omega)]
        · rw [if_neg hxy] at h1
          by_cases hyx : toInt y > toInt x
          · rw [if_pos hyx] at h1; exact absurd h1 (by decide)
          · rw [if_neg hyx] at h1
            by_cases hyz : toInt y > toInt z
            · rw [if_pos (by omega)]
            · rw [if_neg hyz] at h2
              by_cases hzy : toInt z > toInt y
              · rw [if_pos hzy] at h2; exact absurd h2 (by decide)
              · rw [if_neg hzy] at h2
                rw [if_neg (by omega), if_neg (by omega)]
                exact ih Y Z h1 h2

/-- Segment lists that are unordered in both directions have the same values. -/
theorem compareSegments_total (X Y : List QString) (h1 : compareSegments X Y = false)
    (h2 : compareSegments Y X = false) : X.map toInt = Y.map toInt := by
  induction X generalizing Y with
  | nil =>
    cases Y with
    | nil => rfl
    | cons y Y => rw [compareSegments_cons_nil] at h2; exact absurd h2 (by decide)
  | cons x X ih =>
    cases Y with
    | nil => rw [compareSegments_cons_nil] at h1; exact absurd h1 (by decide)
    | cons y Y =>
      rw [compareSegments_cons_cons] at h1 h2
      by_cases hxy : toInt x > toInt y
      · rw [if_pos hxy] at h1; exact absurd h1 (by decide)
      · by_cases hyx : toInt y > toInt x
        · rw [if_pos hyx] at h2; exact absurd h2 (by decide)
        · rw [if_neg hxy, if_neg hyx] at h1
          rw [if_neg hyx, if_neg hxy] at h2
          have e : toInt x = toInt y := by omega
          simp only [List.map_cons, e, ih Y h1 h2]

/-- C28: `compare` is transitive, and two versions that `compare` orders in
neither direction have identical lists of segment values. -/
theorem compare_transitive (x y z : QString) :
    (Updater.compare x y = true → Updater.compare y z = true →
      Updater.compare x z = true) ∧
    (Updater.compare x y = false → Updater.compare y x = false →
      (split x '.').map toInt = (split y '.').map toInt) :=
  ⟨fun h1 h2 => compareSegments_trans (split x '.') (split y '.') (split z '.') h1 h2,
   fun h1 h2 => compareSegments_total (split x '.') (split y '.') h1 h2⟩

/-- C28 on examples: from `2.0 > 1.9.9` and `1.9.9 > 1.9` follows `2.0 > 1.9`;
`1.2` and `1.02`, unordered in both directions, have the values `[1, 2]`. -/
theorem compare_transitive_witness :
    Updater.compare "2.0" "1.9" = true ∧
    (split "1.2" '.').map toInt = (split "1.02" '.').map toInt :=
  ⟨(compare_transitive "2.0" "1.9.9" "1.9").1 (by decide) (by decide),
   (compare_transitive "1.2" "1.02" "").2 (by decide) (by decide)⟩

/-- One iteration of the loop of `QmlUpdater::compare`. -/
theorem qmlCompareLoop_succ (X Y : List QString) (n i : Nat) :
    QmlUpdater.compareLoop X Y (n + 1) i =
      if toInt (X.getD i "") > toInt (Y.getD i "") then some true
      else if toInt (Y.getD i "") > toInt (X.getD i "") then some false
      else QmlUpdater.compareLoop X Y n (i + 1) := rfl

/-- The two loops are the same function. -/
theorem qmlCompareLoop_eq (X Y : List QString) (n i : Nat) :
    QmlUpdater.compareLoop X Y n i = compareLoop X Y n i := by
  induction n generalizing i with
  | zero => rfl
  | succ n ih => rw [qmlCompareLoop_succ, compareLoop_succ, ih (i + 1)]

/-- The two comparators agree on every pair of version strings. -/
theorem qmlCompare_eq (x y : QString) :
    QmlUpdater.compare x y = Updater.compare x y := by
  rw [compare_eq]
  simp only [QmlUpdater.compare, qmlCompareLoop_eq]

/-! ## Theorems: the record and the notifications -/

/-- The mandatory flag after `withRecord`: the value of `mandatory-update`
when the entry has the field, the old flag otherwise. -/
theorem withRecord_mandatory (u : Updater) (doc : QJsonDocument) :
    ((platformOf doc u.platformKey).contains "mandatory-update" = true →
      (withRecord u doc).m_mandatoryUpdate
        = ((platformOf doc u.platformKey).value "mandatory-update").toBool) ∧
    ((platformOf doc u.platformKey).contains "mandatory-update" = false →
      (withRecord u doc).m_mandatoryUpdate = u.m_mandatoryUpdate) := by
  constructor
  · intro h
    have h1 : QJsonObject.contains
        ((QJsonObject.value (QJsonObject.value doc.object "updates").toObject
          u.platformKey).toObject) "mandatory-update" = true := h
    simp only [withRecord, h1, if_true]
    rfl
  · intro h
    have h1 : QJsonObject.contains
        ((QJsonObject.value (QJsonObject.value doc.object "updates").toObject
          u.platformKey).toObject) "mandatory-update" = false := h
    simp only [withRecord, h1, Bool.false_eq_true, if_false]

/-- The session after the parsed-manifest path of `onReply`: the record of
`withRecord`, the result of the comparison, and some state of the downloader. -/
theorem onReply_parsed_updater (fromJson : QByteArray → QJsonDocument) (u : Updater)
    (fs : FileSystem) (reply : QNetworkReply) (y : Bool) (n : Int)
    (hc : u.customAppcast = false) (hr : reply.redirectionTarget = "")
    (he : reply.error = 0) (hp : (fromJson reply.data).isNull = false) :
    ∃ a d, (u.onReply fromJson fs reply y n).updater
      = { withRecord u (fromJson reply.data) with m_updateAvailable := a, m_downloader := d } := by
  rw [onReply_parsed_eq fromJson u fs reply y n hr he hc hp]
  obtain ⟨d, hd⟩ := finishCheck_updater (withRecord u (fromJson reply.data)) fs
    (Updater.compare (withRecord u (fromJson reply.data)).latestVersion
      (withRecord u (fromJson reply.data)).moduleVersion) y n
  exact ⟨_, d, hd⟩

/-- C22: on a successfully parsed manifest, the mandatory flag of the session
becomes the boolean value of `mandatory-update` when the platform entry
contains that field, and keeps the value it had when the field is absent. -/
theorem onReply_mandatory (fromJson : QByteArray → QJsonDocument) (u : Updater)
    (fs : FileSystem) (reply : QNetworkReply) (answerYes : Bool) (now : Int)
    (hc : u.customAppcast = false) (hr : reply.redirectionTarget = "")
    (he : reply.error = 0) (hp : (fromJson reply.data).isNull = false) :
    ((platformOf (fromJson reply.data) u.platformKey).contains "mandatory-update" = true →
      (u.onReply fromJson fs reply answerYes now).updater.mandatoryUpdate
        = ((platformOf (fromJson reply.data) u.platformKey).value "mandatory-update").toBool) ∧
    ((platformOf (fromJson reply.data) u.platformKey).contains "mandatory-update" = false →
      (u.onReply fromJson fs reply answerYes now).updater.mandatoryUpdate
        = u.mandatoryUpdate) := by
  obtain ⟨a, d, h⟩ := onReply_parsed_updater fromJson u fs reply answerYes now hc hr he hp
  obtain ⟨h1, h2⟩ := withRecord_mandatory u (fromJson reply.data)
  rw [h]
  exact ⟨fun hx => h1 hx, fun hx => h2 hx⟩

/-- C22 on the samples: the manifest with `mandatory-update: false` clears the
flag of a session that had it set; the manifest without the field leaves it
set. -/
theorem onReply_mandatory_witness :
    ((sampleUpdater.setMandatoryUpdate true).onReply sampleFromJson sampleFs
        (sampleReply "" 0 [1]) false 0).updater.mandatoryUpdate = false ∧
    ((sampleUpdater.setMandatoryUpdate true).onReply sampleFromJsonPlain sampleFs
        (sampleReply "" 0 [3]) false 0).updater.mandatoryUpdate = true :=
  ⟨((onReply_mandatory sampleFromJson (sampleUpdater.setMandatoryUpdate true) sampleFs
      (sampleReply "" 0 [1]) false 0 (by decide) (by decide) (by decide) (by decide)).1
      (by decide)).trans (by decide),
   ((onReply_mandatory sampleFromJsonPlain (sampleUpdater.setMandatoryUpdate true) sampleFs
      (sampleReply "" 0 [3]) false 0 (by decide) (by decide) (by decide) (by decide)).2
      (by decide)).trans (by decide)⟩

/-- C21, as stated, fails: a session whose mandatory flag was set with
`setMandatoryUpdate(true)` checks a manifest whose platform entry has no
`mandatory-update` field; the check parses, and the flag is still true. -/
theorem onReply_record_counterexample :
    (sampleFromJsonPlain (sampleReply "" 0 [3]).data).isNull = false ∧
    (platformOf (sampleFromJsonPlain (sampleReply "" 0 [3]).data)
      (sampleUpdater.setMandatoryUpdate true).platformKey).contains "mandatory-update"
      = false ∧
    ((sampleUpdater.setMandatoryUpdate true).onReply sampleFromJsonPlain sampleFs
      (sampleReply "" 0 [3]) false 0).updater.mandatoryUpdate = true := by
  decide

/-- C21, amended: for two sessions with the same platform key (custom appcast
off) that receive the same body in an error-free, non-redirect reply that
parses, `openUrl`, `changelog`, `downloadUrl` and `latestVersion` are the same
afterwards, whatever the sessions held before; the mandatory flags are the
same when the platform entry has a `mandatory-update` field, and each session
keeps its own flag when the entry has none. -/
theorem onReply_record_determined (fromJson : QByteArray → QJsonDocument)
    (u v : Updater) (fs fs2 : FileSystem) (reply reply2 : QNetworkReply)
    (answerYes answerYes2 : Bool) (now now2 : Int)
    (hcu : u.customAppcast = false) (hcv : v.customAppcast = false)
    (hk : v.platformKey = u.platformKey) (hd : reply2.data = reply.data)
    (hr : reply.redirectionTarget = "") (hr2 : reply2.redirectionTarget = "")
    (he : reply.error = 0) (he2 : reply2.error = 0)
    (hp : (fromJson reply.data).isNull = false) :
    (v.onReply fromJson fs2 reply2 answerYes2 now2).updater.openUrl
        = (u.onReply fromJson fs reply answerYes now).updater.openUrl ∧
    (v.onReply fromJson fs2 reply2 answerYes2 now2).updater.changelog
        = (u.onReply fromJson fs reply answerYes now).updater.changelog ∧
    (v.onReply fromJson fs2 reply2 answerYes2 now2).updater.downloadUrl
        = (u.onReply fromJson fs reply answerYes now).updater.downloadUrl ∧
    (v.onReply fromJson fs2 reply2 answerYes2 now2).updater.latestVersion
        = (u.onReply fromJson fs reply answerYes now).updater.latestVersion ∧
    ((platformOf (fromJson reply.data) u.platformKey).contains "mandatory-update" = true →
      (v.onReply fromJson fs2 reply2 answerYes2 now2).updater.mandatoryUpdate
        = (u.onReply fromJson fs reply answerYes now).updater.mandatoryUpdate) ∧
    ((platformOf (fromJson reply.data) u.platformKey).contains "mandatory-update" = false →
      (u.onReply fromJson fs reply answerYes now).updater.mandatoryUpdate = u.mandatoryUpdate ∧
      (v.onReply fromJson fs2 reply2 answerYes2 now2).updater.mandatoryUpdate
        = v.mandatoryUpdate) := by
  have hp2 : (fromJson reply2.data).isNull = false := by rw [hd]; exact hp
  obtain ⟨a, d, h⟩ := onReply_parsed_updater fromJson u fs reply answerYes now hcu hr he hp
  obtain ⟨a2, d2, h2⟩ :=
    onReply_parsed_updater fromJson v fs2 reply2 answerYes2 now2 hcv hr2 he2 hp2
  obtain ⟨f1, f2, f3, f4, _, _⟩ := withRecord_fields u (fromJson reply.data)
  obtain ⟨g1, g2, g3, g4, _, _⟩ := withRecord_fields v (fromJson reply.data)
  obtain ⟨m1, m2⟩ := withRecord_mandatory u (fromJson reply.data)
  obtain ⟨n1, n2⟩ := withRecord_mandatory v (fromJson reply.data)
  rw [h, h2, hd]
  rw [hk] at g1 g2 g3 g4 n1 n2
  refine ⟨?_, ?_, ?_, ?_, ?_, ?_⟩
  · exact g1.trans f1.symm
  · exact g2.trans f2.symm
  · exact g3.trans f3.symm
  · exact g4.trans f4.symm
  · intro hx
    exact (n1 hx).trans (m1 hx).symm
  · intro hx
    exact ⟨m2 hx, n2 hx⟩

/-- C21, amended, on the samples: a fresh session and a session that holds
the record of version `2.0` with the mandatory flag set both check the
manifest without `mandatory-update`; both end with version `3.0`, and each
keeps its flag. -/
theorem onReply_record_determined_witness :
    ((sampleUpdaterFound.setMandatoryUpdate true).onReply sampleFromJsonPlain sampleFs
        (sampleReply "" 0 [3]) true 5).updater.latestVersion
      = (sampleUpdater.onReply sampleFromJsonPlain sampleFs
        (sampleReply "" 0 [3]) false 0).updater.latestVersion ∧
    (sampleUpdater.onReply sampleFromJsonPlain sampleFs
        (sampleReply "" 0 [3]) false 0).updater.mandatoryUpdate = false ∧
    ((sampleUpdaterFound.setMandatoryUpdate true).onReply sampleFromJsonPlain sampleFs
        (sampleReply "" 0 [3]) true 5).updater.mandatoryUpdate = true :=
  have h := onReply_record_determined sampleFromJsonPlain sampleUpdater
    (sampleUpdaterFound.setMandatoryUpdate true) sampleFs sampleFs
    (sampleReply "" 0 [3]) (sampleReply "" 0 [3]) false true 0 5
    (by decide) (by decide) (by decide) rfl (by decide) (by decide) (by decide) (by decide)
    (by decide)
  ⟨h.2.2.2.1, (h.2.2.2.2.2 (by decide)).1.trans (by decide),
   (h.2.2.2.2.2 (by decide)).2.trans (by decide)⟩

/-- C23: `setUpdateAvailable(available)` shows the update prompt exactly when
`available` and (`notifyOnUpdate` or `notifyOnFinish`); otherwise it shows the
no-update notification exactly when `notifyOnFinish`; otherwise it shows
nothing. Without the update prompt no download is started, nothing is opened
and `quit` is not called, whatever the mandatory flag: the downloader and the
files are left as they were. -/
theorem setUpdateAvailable_notifications (u : Updater) (fs : FileSystem)
    (available answerYes : Bool) (now : Int) :
    ((u.setUpdateAvailable fs available answerYes now).effects.any Effect.isUpdatePrompt = true
      ↔ (available && (u.notifyOnUpdate || u.notifyOnFinish)) = true) ∧
    ((u.setUpdateAvailable fs available answerYes now).effects.any Effect.isNoUpdatePrompt = true
      ↔ ((available && (u.notifyOnUpdate || u.notifyOnFinish)) = false ∧
          u.notifyOnFinish = true)) ∧
    ((available && (u.notifyOnUpdate || u.notifyOnFinish)) = false →
      (u.setUpdateAvailable fs available answerYes now).effects
          = (if u.notifyOnFinish then [Effect.noUpdatePrompt u.moduleName] else []) ∧
      (u.setUpdateAvailable fs available answerYes now).effects.any Effect.isAction = false ∧
      (u.setUpdateAvailable fs available answerYes now).updater
          = { u with m_updateAvailable := available } ∧
      (u.setUpdateAvailable fs available answerYes now).fs = fs) := by
  simp only [Updater.setUpdateAvailable, Updater.updateAvailable, Updater.notifyOnUpdate,
    Updater.notifyOnFinish, Updater.moduleName, Downloader.startDownload]
  cases available <;> cases hnu : u.m_notifyOnUpdate <;> cases hnf : u.m_notifyOnFinish <;>
    cases answerYes <;> cases hm : u.m_mandatoryUpdate <;>
    simp [Effect.isUpdatePrompt, Effect.isNoUpdatePrompt, Effect.isAction] <;>
    split_ifs <;> simp [Effect.isUpdatePrompt, Effect.isNoUpdatePrompt, Effect.isAction]

/-- C23 on the sample session with the mandatory flag set and both notify
flags off: an available update shows nothing and does nothing. -/
theorem setUpdateAvailable_notifications_witness :
    ((((sampleUpdaterFound.setMandatoryUpdate true).setNotifyOnUpdate false).setUpdateAvailable
        sampleFs true true 0).effects = []) ∧
    ((((sampleUpdaterFound.setMandatoryUpdate true).setNotifyOnUpdate false).setUpdateAvailable
        sampleFs true true 0).effects.any Effect.isAction = false) :=
  have h := (setUpdateAvailable_notifications
    ((sampleUpdaterFound.setMandatoryUpdate true).setNotifyOnUpdate false) sampleFs true true
    0).2.2 (by decide)
  ⟨h.1.trans (by decide), h.2.1⟩

/-! ## Theorems: the numbers of the download dialog -/

/-- After `setMinimum(0)` the range starts at 0. -/
theorem setMinimum_zero (pb : ProgressBar) : (pb.setMinimum 0).minimum = 0 := by
  simp only [ProgressBar.setMinimum, ProgressBar.setRange, ProgressBar.reset]
  split_ifs <;> simp_all

/-- After `setMaximum(0)` on a range that starts at 0 the range is `0..0`. -/
theorem setMaximum_zero (pb : ProgressBar) (h : pb.minimum = 0) :
    (pb.setMaximum 0).minimum = 0 ∧ (pb.setMaximum 0).maximum = 0 := by
  simp only [ProgressBar.setMaximum, ProgressBar.setRange, ProgressBar.reset]
  split_ifs <;> simp_all

/-- On the range `0..0` the progress bar takes every value. -/
theorem setValue_indeterminate (pb : ProgressBar) (v : Int) (h : pb.minimum = 0)
    (h2 : pb.maximum = 0) :
    pb.setValue v = { minimum := 0, maximum := 0, value := v } := by
  simp only [ProgressBar.setValue]
  split_ifs with hc
  · rcases hc with hc | hc
    · cases pb; simp_all
    · exfalso; simp_all
  · cases pb; simp_all

/-- The branch of `updateProgress` for an unknown total: the slot returns, the
progress bar has the range 0..0 with the value -1, the labels show dots, and
neither the files nor the reply object are touched. -/
theorem updateProgress_unknown_total (texts : DialogTexts) (d : Downloader) (fs : FileSystem)
    (now later received total : Int) (h : total ≤ 0) :
    ∃ r, d.updateProgress texts fs now later received total = some r ∧
      r.fs = fs ∧ r.effects = [] ∧ r.downloader.m_reply = d.m_reply ∧
      r.downloader.progressBar = { minimum := 0, maximum := 0, value := -1 } ∧
      r.downloader.timeLabel = "剩余时间" ++ ": " ++ "..." := by
  have h0 : ¬ total > 0 := by omega
  simp only [Downloader.updateProgress, if_neg h0]
  refine ⟨_, rfl, rfl, rfl, rfl, ?_, rfl⟩
  have hm := setMaximum_zero _ (setMinimum_zero d.progressBar)
  exact setValue_indeterminate _ _ hm.1 hm.2

/-- What `saveFile` writes when the reply carries no redirect target and the
partial file can be opened: the unread bytes go to the end of the file. -/
theorem saveFile_appends (d : Downloader) (fs : FileSystem) (now : Int) (reply : QNetworkReply)
    (hr : d.m_reply = some reply) (hno : reply.redirectionTarget = "")
    (hopen : fs.canAppend d.partialPath = true) :
    (d.saveFile fs now).fs = fs.append d.partialPath reply.data ∧
    (d.saveFile fs now).downloader = { d with m_reply := some { reply with data := [] } } := by
  simp only [Downloader.saveFile, hr, hno, hopen]
  simp

/-- Claim C24, at the input where the code leaves it: a progress event with an
unknown total (-1) that brings three bytes and no redirect target. The slot
puts the progress bar into the indeterminate state (range 0..0, no value), but
it does not call `saveFile`: the partial file does not exist afterwards and the
three bytes are still unread in the reply object. The same event with the total
3 writes them. -/
theorem progress_unknown_total_not_saved :
    (Downloader.run sampleCapture (qtTexts sampleRealText) sampleDownload
        [DownloadEvent.progress 3 (-1) [1, 2, 3] "" 0 0]).map
      (fun r => (r.fs.read r.downloader.partialPath, r.fs == sampleDownload.fs,
        r.downloader.m_reply.map (fun reply => reply.data), r.downloader.progressBar))
      = some (none, true, some [1, 2, 3], { minimum := 0, maximum := 0, value := -1 }) ∧
    (Downloader.run sampleCapture (qtTexts sampleRealText) sampleDownload
        [DownloadEvent.progress 3 3 [1, 2, 3] "" 0 0]).map
      (fun r => (r.fs.read r.downloader.partialPath,
        r.downloader.m_reply.map (fun reply => reply.data)))
      = some (some [1, 2, 3], some []) := by
  decide

/-- When `calculateTimeRemaining` divides by zero: exactly when the clock has
moved (`difference > 0`) and the integer quotient `received / difference` is 0. -/
theorem calculateTimeRemaining_none_iff (d : Downloader) (texts : DialogTexts)
    (now received total : Int) :
    d.calculateTimeRemaining texts now received total = none ↔
      (0 < (now - d.m_startTime) % 4294967296 ∧
        Int.tdiv received ((now - d.m_startTime) % 4294967296) = 0) := by
  simp only [Downloader.calculateTimeRemaining]
  split_ifs with h1 h2
  · simp only [true_iff]; exact ⟨h1, h2⟩
  · constructor
    · intro h; cases h
    · intro h; exact absurd h.2 h2
  · constructor
    · intro h; cases h
    · intro h; exact absurd h.1 h1

/-- With no time elapsed `calculateTimeRemaining` evaluates no division and
leaves the dialog as it is. -/
theorem calculateTimeRemaining_no_elapsed (d : Downloader) (texts : DialogTexts)
    (received total : Int) :
    d.calculateTimeRemaining texts d.m_startTime received total = some d := by
  simp [Downloader.calculateTimeRemaining]

/-- Claim C25, at the inputs where the code leaves it: one second after the
start with nothing received yet (received 0, total 100), and five seconds after
the start with three bytes of three received, `received / difference` is 0 and
`calculateTimeRemaining` divides by it; so does the slot `updateProgress` that
calls it. Only the case of no elapsed time is guarded. -/
theorem calculateTimeRemaining_divides_by_zero :
    sampleDownload.downloader.calculateTimeRemaining (qtTexts sampleRealText) 1 0 100 = none ∧
    sampleDownload.downloader.calculateTimeRemaining (qtTexts sampleRealText) 5 3 3 = none ∧
    Downloader.run sampleCapture (qtTexts sampleRealText) sampleDownload
      [DownloadEvent.progress 0 100 [] "" 1 1] = none ∧
    (sampleDownload.downloader.calculateTimeRemaining (qtTexts sampleRealText) 0 0 100).isSome
      = true := by
  decide

/-- The number `intOfPlusHalf` gives for a quotient that is not negative and
whose rounded value fits an `int` is the nearest integer. -/
theorem intOfPlusHalf_nearest (t unit : Int) (ht : 0 ≤ t) (hu : 0 < unit)
    (hfit : 2 * t + unit < 4294967296 * unit) :
    IsNearest (intOfPlusHalf t unit) t unit := by
  unfold IsNearest intOfPlusHalf doubleToInt
  rw [Int.tdiv_eq_ediv (by omega) (by omega)]
  have h1 := Int.ediv_mul_le (2 * t + unit) (show (2 * unit : Int) ≠ 0 by omega)
  have h2 := Int.lt_ediv_add_one_mul_self (2 * t + unit) (show (0 : Int) < 2 * unit by omega)
  have h0 : 0 ≤ (2 * t + unit) / (2 * unit) := Int.ediv_nonneg (by omega) (by omega)
  have h3 : (2 * t + unit) / (2 * unit) ≤ 2147483647 := by
    have : (2 * t + unit) / (2 * unit) < 2147483648 := by
      apply Int.ediv_lt_of_lt_mul (by omega)
      nlinarith
    omega
  rw [if_neg (by omega)]
  constructor <;> nlinarith

/-- Where the hour count no longer fits an `int`: from 7730941131000 seconds
on, `t / 3600 + 0.5` is at least `2^31`, the converted number is not above 1
and the label reads one hour. -/
theorem timeEstimate_beyond_int (t : Int) (h : 7730941131000 ≤ t) :
    timeEstimate t = { unit := TimeUnit.hours, shown := 1, singular := true } := by
  have h1 : t > 7200 := by omega
  have h2 : intOfPlusHalf t 3600 = -2147483648 := by
    unfold intOfPlusHalf doubleToInt
    rw [Int.tdiv_eq_ediv (by omega) (by omega)]
    have : 2147483648 ≤ (2 * t + 3600) / (2 * 3600) := by omega
    rw [if_pos (Or.inr (by omega))]
  simp only [timeEstimate, if_pos h1, h2]
  rfl

/-- Claim C26, counterexample: for the estimate of 0 seconds (the download is
complete, one second after its start) the nearest integer is 0, but the label
shows the number 1 in the singular text. -/
theorem timeEstimate_zero_counterexample :
    timeEstimate 0 = { unit := TimeUnit.seconds, shown := 1, singular := true } ∧
    ¬ IsNearest (timeEstimate 0).shown 0 1 ∧
    timeString 0 = "1 秒" ∧
    (sampleDownload.downloader.calculateTimeRemaining (qtTexts sampleRealText) 1 100 100).map
      (fun d => d.timeLabel) = some "剩余时间: 1 秒" := by
  refine ⟨by decide, ?_, by decide, by decide⟩
  unfold IsNearest
  decide

/-- Claim C26, amended: for every estimate of `t` seconds with
`1 ≤ t < 7730941131000` (the hour count fits an `int`), the label shows hours
when `t > 7200`, minutes when `60 < t ≤ 7200` and seconds when `t ≤ 60`; the
number shown is the quotient of `t` by the unit rounded to the nearest integer,
and the singular text is used exactly when that number is 1. For `t = 0` the
label shows 1 second in the singular text. -/
theorem timeEstimate_rounds (t : Int) (ht : 0 ≤ t) (hb : t < 7730941131000) :
    (7200 < t → (timeEstimate t).unit = TimeUnit.hours ∧
      IsNearest (timeEstimate t).shown t 3600) ∧
    (60 < t → t ≤ 7200 → (timeEstimate t).unit = TimeUnit.minutes ∧
      IsNearest (timeEstimate t).shown t 60) ∧
    (1 ≤ t → t ≤ 60 → (timeEstimate t).unit = TimeUnit.seconds ∧
      (timeEstimate t).shown = t ∧ IsNearest (timeEstimate t).shown t 1) ∧
    (1 ≤ t → ((timeEstimate t).singular = true ↔ (timeEstimate t).shown = 1)) ∧
    (t = 0 → timeEstimate t = { unit := TimeUnit.seconds, shown := 1, singular := true }) := by
  have hh := intOfPlusHalf_nearest t 3600 ht (by decide) (by omega)
  refine ⟨?_, ?_, ?_, ?_, ?_⟩
  · intro h
    unfold IsNearest at hh
    simp only [timeEstimate, if_pos h]
    split_ifs with h1
    · exact ⟨rfl, hh⟩
    · refine ⟨rfl, ?_⟩
      unfold IsNearest
      simp only
      omega
  · intro h h2
    have hm := intOfPlusHalf_nearest t 60 ht (by decide) (by omega)
    unfold IsNearest at hm
    have h3 : ¬ t > 7200 := by omega
    simp only [timeEstimate, if_neg h3, if_pos h]
    split_ifs with h1
    · exact ⟨rfl, hm⟩
    · refine ⟨rfl, ?_⟩
      unfold IsNearest
      simp only
      omega
  · intro h h2
    have hs := intOfPlusHalf_nearest t 1 ht (by decide) (by omega)
    unfold IsNearest at hs
    have h3 : ¬ t > 7200 := by omega
    have h4 : ¬ t > 60 := by omega
    simp only [timeEstimate, if_neg h3, if_neg h4]
    split_ifs with h1
    · refine ⟨rfl, ?_, hs⟩
      simp only
      omega
    · refine ⟨rfl, ?_, ?_⟩
      · simp only
        omega
      · unfold IsNearest
        simp only
        omega
  · intro h
    simp only [timeEstimate]
    split_ifs <;> simp only <;> constructor <;> intro hx <;> first | omega | rfl | cases hx
  · intro h
    subst h
    decide

/-- The amended claim C26 at `t = 5400`, where 90 minutes are shown, and at the
last estimate whose hour count fits an `int`. -/
theorem timeEstimate_rounds_witness :
    (0 : Int) ≤ 5400 ∧ (5400 : Int) < 7730941131000 ∧
    timeEstimate 5400 = { unit := TimeUnit.minutes, shown := 90, singular := false } ∧
    IsNearest (timeEstimate 5400).shown 5400 60 ∧
    IsNearest (timeEstimate 7730941130999).shown 7730941130999 3600 :=
  ⟨by decide, by decide, by decide,
    ((timeEstimate_rounds 5400 (by decide) (by decide)).2.1 (by decide) (by decide)).2,
    ((timeEstimate_rounds 7730941130999 (by decide) (by decide)).1 (by decide)).2⟩

/-- The unit `calculateSizes` chooses and the number it prints: the count
itself below 1024, else the whole part of the quotient by 1024 or by 1048576. -/
theorem sizeNumber_eq (n : Int) (h : 0 ≤ n) :
    (n < 1024 → sizeNumber n = (SizeUnit.bytes, n)) ∧
    (1024 ≤ n → n < 1048576 → sizeNumber n = (SizeUnit.KB, n / 1024)) ∧
    (1048576 ≤ n → sizeNumber n = (SizeUnit.MB, n / 1048576)) := by
  refine ⟨?_, ?_, ?_⟩
  · intro h1
    simp only [sizeNumber, if_pos h1]
  · intro h1 h2
    have h3 : ¬ n < 1024 := by omega
    simp only [sizeNumber, if_neg h3, if_pos h2]
    rw [Int.tdiv_eq_ediv h (by decide)]
  · intro h1
    have h3 : ¬ n < 1024 := by omega
    have h4 : ¬ n < 1048576 := by omega
    simp only [sizeNumber, if_neg h3, if_neg h4]
    rw [Int.tdiv_eq_ediv h (by decide)]

/-- Claim C27, at the input where the code leaves it: 1536 bytes. The quotient
`1536 / 1024` is taken between integers, so the number handed on is 1, the
received size reads `1 KB` and the total size is the text of 1, the same text
as for 1024 bytes, whatever the printing of reals is; `1.5` is never formed.
Below 1024 the count is shown in bytes. -/
theorem sizes_lose_fraction (realText : Int → QString) :
    sizeNumber 1536 = (SizeUnit.KB, 1) ∧
    receivedSizeText 1536 = "1 KB" ∧
    totalSizeText realText 1536 = realText 1 ++ " KB" ∧
    totalSizeText realText 1536 = totalSizeText realText 1024 ∧
    receivedSizeText 1572864 = "1 MB" ∧
    receivedSizeText 1023 = "1023 bytes" ∧
    (sampleDownload.downloader.calculateSizes (qtTexts sampleRealText) 1536 1536).downloadLabel
      = "正在下载更新 (1 KB / 1 KB)" := by
  refine ⟨by decide, by decide, ?_, ?_, by decide, by decide, by decide⟩
  · have h : sizeNumber 1536 = (SizeUnit.KB, 1) := by decide
    simp only [totalSizeText, h]
  · have h : sizeNumber 1536 = (SizeUnit.KB, 1) := by decide
    have h2 : sizeNumber 1024 = (SizeUnit.KB, 1) := by decide
    simp only [totalSizeText, h, h2]

/-! ## Theorems: the two comparators at work -/

/-- A second `getUpdater` for the same URL returns what the first returned. -/
theorem getUpdater_idem (app : QApp) (p : Process) (url : QString) :
    QSimpleUpdater.getUpdater app (QSimpleUpdater.getUpdater app p url).2 url
      = QSimpleUpdater.getUpdater app p url := by
  rw [getUpdater_of_mem app _ url (getUpdater_mem app p url), ← getUpdater_fst app p url]

/-- A getter called after another getter for the same URL reads the session
the first one read. -/
theorem read_after_read (app : QApp) (p : Process) (url : QString) {β γ : Type}
    (f : Updater → β) (g : Updater → γ) :
    QSimpleUpdater.read app (QSimpleUpdater.read app p url g).2 url f
      = QSimpleUpdater.read app p url f := by
  simp only [QSimpleUpdater.read, getUpdater_idem]

/-- What `displayAppcast` emits for its own URL in a well-formed registry: with
a body that parses, `notifyUpdate` exactly when `QmlUpdater::compare` puts the
`latest-version` of the platform entry above the module version of the session. -/
theorem displayAppcast_emits (app : QApp) (fromJson : QByteArray → QJsonDocument)
    (q : QmlUpdater) (p : Process) (reply : QByteArray) (h : p.WF) :
    (QmlUpdater.displayAppcast app fromJson q p q.DEFS_URL reply).2.2 =
      if (fromJson reply).isNull then none
      else if QmlUpdater.compare
          ((platformOf (fromJson reply)
            ((p.session q.DEFS_URL).getD ((Updater.new app).setUrl q.DEFS_URL)).platformKey).value
            "latest-version").toString
          ((p.session q.DEFS_URL).getD ((Updater.new app).setUrl q.DEFS_URL)).moduleVersion
        then some
          { ver := ((platformOf (fromJson reply)
              ((p.session q.DEFS_URL).getD ((Updater.new app).setUrl q.DEFS_URL)).platformKey).value
              "latest-version").toString,
            name := ((p.session q.DEFS_URL).getD ((Updater.new app).setUrl q.DEFS_URL)).moduleName,
            log := ((platformOf (fromJson reply)
              ((p.session q.DEFS_URL).getD ((Updater.new app).setUrl q.DEFS_URL)).platformKey).value
              "changelog").toString }
        else none := by
  have hk : (QSimpleUpdater.getPlatformKey app p q.DEFS_URL).1
      = some ((p.session q.DEFS_URL).getD ((Updater.new app).setUrl q.DEFS_URL)).platformKey :=
    read_eq app p q.DEFS_URL h Updater.platformKey
  have hv : (QSimpleUpdater.getModuleVersion app
      (QSimpleUpdater.getPlatformKey app p q.DEFS_URL).2 q.DEFS_URL).1
      = some ((p.session q.DEFS_URL).getD ((Updater.new app).setUrl q.DEFS_URL)).moduleVersion := by
    have e := read_after_read app p q.DEFS_URL Updater.moduleVersion Updater.platformKey
    have e2 := read_eq app p q.DEFS_URL h Updater.moduleVersion
    simp only [QSimpleUpdater.getModuleVersion, QSimpleUpdater.getPlatformKey, e, e2]
  have hn : (QSimpleUpdater.getModuleName app
      (QSimpleUpdater.getModuleVersion app
        (QSimpleUpdater.getPlatformKey app p q.DEFS_URL).2 q.DEFS_URL).2 q.DEFS_URL).1
      = some ((p.session q.DEFS_URL).getD ((Updater.new app).setUrl q.DEFS_URL)).moduleName := by
    have e := read_after_read app p q.DEFS_URL Updater.moduleVersion Updater.platformKey
    have e1 := read_after_read app p q.DEFS_URL Updater.moduleName Updater.moduleVersion
    have e2 := read_eq app p q.DEFS_URL h Updater.moduleName
    simp only [QSimpleUpdater.getModuleName, QSimpleUpdater.getModuleVersion,
      QSimpleUpdater.getPlatformKey, e, e1, e2]
  simp only [QmlUpdater.displayAppcast, ne_eq, not_true_eq_false, if_false, hk, hv, hn,
    platformOf]
  split_ifs <;> rfl


/-- A registry reached by a list of actions from a reachable one is reachable. -/
theorem reachable_foldl (app : QApp) (fromJson : QByteArray → QJsonDocument)
    (actions : List Action) (p : Process) (h : Reachable app fromJson p) :
    Reachable app fromJson (actions.foldl (fun p a => (p.step app fromJson a).1) p) := by
  induction actions generalizing p with
  | nil => exact h
  | cons a as ih => exact ih _ (Reachable.step a h)

/-- What the built-in path decides: on a reply without redirect or error, with
the custom appcast off, `updateAvailable` is false for a body that does not
parse and else the result of `Updater::compare` on the `latest-version` of the
platform entry and the module version of the session. -/
theorem onReply_builtin_available (fromJson : QByteArray → QJsonDocument) (u : Updater)
    (fs : FileSystem) (reply : QNetworkReply) (y : Bool) (n : Int)
    (hc : u.customAppcast = false) (hr : reply.redirectionTarget = "")
    (he : reply.error = 0) :
    (u.onReply fromJson fs reply y n).updater.updateAvailable =
      if (fromJson reply.data).isNull then false
      else Updater.compare
        ((platformOf (fromJson reply.data) u.platformKey).value "latest-version").toString
        u.moduleVersion := by
  by_cases hp : (fromJson reply.data).isNull = true
  · rw [onReply_invalid fromJson u fs reply y n hr he hc hp, if_pos hp]
    obtain ⟨d, hd⟩ := finishCheck_updater u fs false y n
    rw [hd]
    rfl
  · have hp2 : (fromJson reply.data).isNull = false := by
      cases hx : (fromJson reply.data).isNull
      · rfl
      · exact absurd hx hp
    rw [onReply_parsed_eq fromJson u fs reply y n hr he hc hp2, if_neg hp]
    obtain ⟨d, hd⟩ := finishCheck_updater (withRecord u (fromJson reply.data)) fs
      (Updater.compare (withRecord u (fromJson reply.data)).latestVersion
        (withRecord u (fromJson reply.data)).moduleVersion) y n
    obtain ⟨_, _, _, hl, hm, _⟩ := withRecord_fields u (fromJson reply.data)
    rw [hd]
    simp only [Updater.updateAvailable, Updater.latestVersion, Updater.moduleVersion, hl, hm,
      platformOf]

/-- C29: `QmlUpdater::compare` returns what `Updater::compare` returns for every
pair of version strings, and for every body of a manifest reply the two paths
decide alike: in a well-formed registry `QmlUpdater::displayAppcast` emits
`notifyUpdate` for its URL exactly when `Updater::onReply`, run on the same
session with the custom appcast switched off and on a reply without redirect or
error carrying that body, sets `updateAvailable` to true. -/
theorem displayAppcast_decides_as_onReply (app : QApp)
    (fromJson : QByteArray → QJsonDocument) (q : QmlUpdater) (p : Process)
    (reply : QNetworkReply) (fs : FileSystem) (answerYes : Bool) (now : Int)
    (h : p.WF) (hr : reply.redirectionTarget = "") (he : reply.error = 0) :
    (∀ x y : QString, QmlUpdater.compare x y = Updater.compare x y) ∧
    (QmlUpdater.displayAppcast app fromJson q p q.DEFS_URL reply.data).2.2.isSome
      = ((((p.session q.DEFS_URL).getD ((Updater.new app).setUrl q.DEFS_URL)).setUseCustomAppcast
          false).onReply fromJson fs reply answerYes now).updater.updateAvailable := by
  refine ⟨qmlCompare_eq, ?_⟩
  rw [displayAppcast_emits app fromJson q p reply.data h,
    onReply_builtin_available fromJson
      (((p.session q.DEFS_URL).getD ((Updater.new app).setUrl q.DEFS_URL)).setUseCustomAppcast
        false) fs reply answerYes now rfl hr he,
    qmlCompare_eq]
  simp only [Updater.setUseCustomAppcast, Updater.platformKey, Updater.moduleVersion]
  split_ifs <;> simp_all

/-- C29 on the registry `QmlUpdater::checkForUpdates` sets up, with the body
of a manifest that announces version 3.0 to the application of version 1.0:
`notifyUpdate` is emitted and the built-in path sets `updateAvailable`. -/
theorem displayAppcast_decides_as_onReply_witness :
    sampleQmlProcess.WF ∧
    (QmlUpdater.displayAppcast sampleApp sampleFromJsonPlain sampleQml sampleQmlProcess
        sampleQml.DEFS_URL (sampleReply "" 0 [3]).data).2.2
      = some { ver := "3.0", name := "app", log := "more fixes" } ∧
    (QmlUpdater.displayAppcast sampleApp sampleFromJsonPlain sampleQml sampleQmlProcess
        sampleQml.DEFS_URL (sampleReply "" 0 [3]).data).2.2.isSome
      = ((((sampleQmlProcess.session sampleQml.DEFS_URL).getD
          ((Updater.new sampleApp).setUrl sampleQml.DEFS_URL)).setUseCustomAppcast
          false).onReply sampleFromJsonPlain sampleFs (sampleReply "" 0 [3]) false 0).updater.updateAvailable :=
  ⟨reachable_wf sampleApp sampleFromJsonPlain _
      (reachable_foldl sampleApp sampleFromJsonPlain _ _ (Reachable.init sampleFs)),
    by decide,
    (displayAppcast_decides_as_onReply sampleApp sampleFromJsonPlain sampleQml sampleQmlProcess
      (sampleReply "" 0 [3]) sampleFs false 0
      (reachable_wf sampleApp sampleFromJsonPlain _
        (reachable_foldl sampleApp sampleFromJsonPlain _ _ (Reachable.init sampleFs)))
      rfl rfl).2⟩

end QSU
